import Mathlib

/-! KGSL power-scale policy framework (`drivers/gpu/msm/kgsl_pwrscale.c`).

A shallow embedding of the policy slot of a KGSL device, of the attach/detach
controller, of the teardown hook, of the four event dispatchers and of the two
sysfs attributes `policy` and `avail_policies`, followed by theorems about
them.

Conventions of the embedding.

* A C string is the list of its bytes; reading at or past the end of the list
  yields the terminating NUL, and a NUL inside the list ends the string there.
* A hook of a policy descriptor is a function pointer into code outside this
  file.  A hook is represented by whether the pointer is NULL and, for `init`,
  by the `int` it returns.  Hooks are taken not to write the policy slot.
  Every hook is called with the device and its slot, `(device,
  &device->pwrscale)`; the embedding has one device, so a call is identified
  by the hook and the descriptor.
* The device carries a ghost log of the events the code performs on it:
  mutex operations, reads and writes of `device->pwrscale.policy`, hook calls,
  and the `kobject_put` of teardown.
* Calling a NULL function pointer is the fault `Fault.null_call`, which keeps
  the device as it is when the call is made.
* `PAGE_SIZE` and `SSIZE_MAX` are constants of the platform headers, which are
  not among the sources; they are parameters.
-/

namespace KgslPwrscale

/-! ## Data model -/

/-- The six hooks of `struct kgsl_pwrscale_policy`. -/
inductive Hook where
  | init
  | close
  | sleep
  | wake
  | busy
  | idle
  deriving DecidableEq, Repr

/-- The descriptor `struct kgsl_pwrscale_policy`: a name and six function
pointers.  `none` is a NULL pointer; `init` returns an `int`, the other hooks
return nothing. -/
structure kgsl_pwrscale_policy where
  name : List Char
  init : Option Int
  close : Option Unit
  sleep : Option Unit
  wake : Option Unit
  busy : Option Unit
  idle : Option Unit
  deriving DecidableEq, Repr

/-- One step the code performs on the device. -/
inductive Event where
  | mutex_lock
  | mutex_unlock
  | load_policy
  | store_policy (p : Option kgsl_pwrscale_policy)
  | call (h : Hook) (p : kgsl_pwrscale_policy)
  | kobject_put
  deriving DecidableEq, Repr

/-- The slot `struct kgsl_pwrscale`: the pointer to the active policy. -/
structure kgsl_pwrscale where
  policy : Option kgsl_pwrscale_policy
  deriving DecidableEq, Repr

/-- The device `struct kgsl_device`, reduced to its slot and the ghost log. -/
structure kgsl_device where
  pwrscale : kgsl_pwrscale
  log : List Event
  deriving DecidableEq, Repr

/-- The ways an operation can fail to return: the call of the hook `h` through
a NULL pointer, which stops the code with the device as it is at the call. -/
inductive Fault where
  | null_call (h : Hook) (device : kgsl_device)
  deriving DecidableEq, Repr

deriving instance DecidableEq for Except

/-- Modelled from the spec: the generic I/O error code of the property-write
surface.  It is `EIO` of the kernel's errno header, which is not among the
sources; its value is 5. -/
def EIO : Int := 5

/-- The conversion of a `size_t` value to `ssize_t`, as made by `return count`
in a function returning `ssize_t`.  `SSIZE_MAX` is the largest `ssize_t`;
`size_t` holds the values up to `2 * SSIZE_MAX + 1`, and a value above
`SSIZE_MAX` comes out negative (two's complement). -/
def to_ssize_t (SSIZE_MAX : Nat) (count : Nat) : Int :=
  let c := count % (2 * SSIZE_MAX + 2)
  if c ≤ SSIZE_MAX then (c : Int) else (c : Int) - ((2 * SSIZE_MAX + 2 : Nat) : Int)

/-! ## C library routines used by the file -/

/-- The terminating NUL. -/
def NUL : Char := Char.ofNat 0

/-- The characters of a C string: the bytes before the first NUL. -/
def cstr : List Char → List Char
  | [] => []
  | c :: cs => if c = NUL then [] else c :: cstr cs

/-- C `strnlen(s, count)`: the length of the string, at most `count`. -/
def strnlen : List Char → Nat → Nat
  | [], _ => 0
  | c :: cs, count => if count = 0 ∨ c = NUL then 0 else 1 + strnlen cs (count - 1)

/-- C `strncmp(cs, ct, count)`: compare at most `count` bytes, stopping after a
NUL; the result is `-1`, `0` or `1`. -/
def strncmp : List Char → List Char → Nat → Int
  | _, _, 0 => 0
  | cs, ct, count + 1 =>
    let c1 := cs.headD NUL
    let c2 := ct.headD NUL
    if c1 ≠ c2 then (if c1 < c2 then -1 else 1)
    else if c1 = NUL then 0
    else strncmp cs.tail ct.tail count

/-- C `snprintf(buf + off, size, ...)` where `text` is the formatted output.
`buf` is the string held by the buffer before the call, and `off` is at most
its length.  At most `size - 1` characters are written, followed by a NUL; the
return value is the length of the whole formatted output.  A size that is
negative as an `int` is rejected: nothing is written and 0 is returned. -/
def snprintf (buf : List Char) (off : Nat) (size : Int) (text : List Char) :
    List Char × Int :=
  if size < 0 then (buf, 0)
  else if size = 0 then (buf, text.length)
  else (buf.take off ++ text.take (size.toNat - 1), text.length)

/-! ## Ghost log -/

/-- Append an event to the device's log. -/
def record (device : kgsl_device) (e : Event) : kgsl_device :=
  { device with log := device.log ++ [e] }

/-- The assignment `device->pwrscale.policy = p`. -/
def set_policy (device : kgsl_device) (p : Option kgsl_pwrscale_policy) : kgsl_device :=
  record { device with pwrscale := { policy := p } } (Event.store_policy p)

/-- The hook call an event stands for, if it is one. -/
def Event.hook_call : Event → Option (Hook × kgsl_pwrscale_policy)
  | Event.call h p => some (h, p)
  | _ => none

/-- The hook calls of a log, in order. -/
def hook_calls (log : List Event) : List (Hook × kgsl_pwrscale_policy) :=
  log.filterMap Event.hook_call

/-! ## Attach/detach controller -/

/-- The function `kgsl_pwrscale_detach_policy`. -/
def kgsl_pwrscale_detach_policy (device : kgsl_device) : Except Fault kgsl_device :=
  -- mutex_lock(&device->mutex);
  let device := record device Event.mutex_lock
  -- if (device->pwrscale.policy != NULL)
  let device := record device Event.load_policy
  match device.pwrscale.policy with
  | some p =>
    -- device->pwrscale.policy->close(device, &device->pwrscale);
    let device := record device Event.load_policy
    match p.close with
    | none => Except.error (Fault.null_call Hook.close device)
    | some () =>
      let device := record device (Event.call Hook.close p)
      -- device->pwrscale.policy = NULL;
      let device := set_policy device none
      -- mutex_unlock(&device->mutex);
      Except.ok (record device Event.mutex_unlock)
  | none =>
    let device := set_policy device none
    Except.ok (record device Event.mutex_unlock)

/-- The function `kgsl_pwrscale_attach_policy`; the result is `ret`. -/
def kgsl_pwrscale_attach_policy (device : kgsl_device) (policy : kgsl_pwrscale_policy) :
    Except Fault (Int × kgsl_device) :=
  -- if (device->pwrscale.policy != NULL) kgsl_pwrscale_detach_policy(device);
  let device := record device Event.load_policy
  let detached : Except Fault kgsl_device :=
    match device.pwrscale.policy with
    | some _ => kgsl_pwrscale_detach_policy device
    | none => Except.ok device
  match detached with
  | Except.error f => Except.error f
  | Except.ok device =>
    -- mutex_lock(&device->mutex);
    let device := record device Event.mutex_lock
    -- device->pwrscale.policy = policy;
    let device := set_policy device (some policy)
    -- ret = device->pwrscale.policy->init(device, &device->pwrscale);
    let device := record device Event.load_policy
    match policy.init with
    | none => Except.error (Fault.null_call Hook.init device)
    | some ret =>
      let device := record device (Event.call Hook.init policy)
      -- if (ret) device->pwrscale.policy = NULL;
      let device := if ret ≠ 0 then set_policy device none else device
      -- mutex_unlock(&device->mutex);
      Except.ok (ret, record device Event.mutex_unlock)

/-- The entry test of `kgsl_pwrscale_attach_policy` (line 283), made before
the mutex is taken: whether the slot is occupied. -/
def attach_test (device : kgsl_device) : Bool × kgsl_device :=
  -- if (device->pwrscale.policy != NULL)
  let device := record device Event.load_policy
  (device.pwrscale.policy.isSome, device)

/-- The locked section of `kgsl_pwrscale_attach_policy` (lines 286 to 291);
the result is `ret`. -/
def attach_locked (device : kgsl_device) (policy : kgsl_pwrscale_policy) :
    Except Fault (Int × kgsl_device) :=
  -- mutex_lock(&device->mutex);
  let device := record device Event.mutex_lock
  -- device->pwrscale.policy = policy;
  let device := set_policy device (some policy)
  -- ret = device->pwrscale.policy->init(device, &device->pwrscale);
  let device := record device Event.load_policy
  match policy.init with
  | none => Except.error (Fault.null_call Hook.init device)
  | some ret =>
    let device := record device (Event.call Hook.init policy)
    -- if (ret) device->pwrscale.policy = NULL;
    let device := if ret ≠ 0 then set_policy device none else device
    -- mutex_unlock(&device->mutex);
    Except.ok (ret, record device Event.mutex_unlock)

/-- A call of `kgsl_pwrscale_attach_policy` or `kgsl_pwrscale_detach_policy` in
progress, at one of the points where a concurrent call can run in between:
the mutex is not held at any of them. -/
inductive Thread where
  | attach_entry (policy : kgsl_pwrscale_policy)
  | attach_detach (policy : kgsl_pwrscale_policy)
  | attach_section (policy : kgsl_pwrscale_policy)
  | detach_entry
  | returned
  deriving DecidableEq, Repr

/-- One atomic step of a call in progress.  At `attach_entry` it is the entry
test of line 283; at `attach_detach` the call of
`kgsl_pwrscale_detach_policy` of line 284, one section under the mutex; at
`attach_section` the locked section of lines 286 to 291; at `detach_entry`
the whole of `kgsl_pwrscale_detach_policy`, one section under the mutex.  The
sections under the mutex exclude each other, so each is one step. -/
def thread_step (device : kgsl_device) : Thread → Except Fault (Thread × kgsl_device)
  | Thread.attach_entry policy =>
    let r := attach_test device
    Except.ok (if r.1 then Thread.attach_detach policy else Thread.attach_section policy, r.2)
  | Thread.attach_detach policy =>
    match kgsl_pwrscale_detach_policy device with
    | Except.error f => Except.error f
    | Except.ok device => Except.ok (Thread.attach_section policy, device)
  | Thread.attach_section policy =>
    match attach_locked device policy with
    | Except.error f => Except.error f
    | Except.ok (_, device) => Except.ok (Thread.returned, device)
  | Thread.detach_entry =>
    match kgsl_pwrscale_detach_policy device with
    | Except.error f => Except.error f
    | Except.ok device => Except.ok (Thread.returned, device)
  | Thread.returned => Except.ok (Thread.returned, device)

/-- An interleaving of concurrent calls: the schedule names, step after step,
the call that takes its next atomic step (a number that names no call does
nothing). -/
def interleave : List Nat → List Thread → kgsl_device →
    Except Fault (List Thread × kgsl_device)
  | [], threads, device => Except.ok (threads, device)
  | i :: schedule, threads, device =>
    match threads[i]? with
    | none => interleave schedule threads device
    | some t =>
      match thread_step device t with
      | Except.error f => Except.error f
      | Except.ok (t1, device1) => interleave schedule (threads.set i t1) device1

/-- The function `kgsl_pwrscale_close`: it drops the reference on the sysfs
object `device->pwrscale_kobj`, whose release `pwrscale_sysfs_release` has an
empty body. -/
def kgsl_pwrscale_close (device : kgsl_device) : kgsl_device :=
  -- kobject_put(&device->pwrscale_kobj);
  record device Event.kobject_put

/-! ## Event dispatchers -/

/-- The function `kgsl_pwrscale_sleep`. -/
def kgsl_pwrscale_sleep (device : kgsl_device) : kgsl_device :=
  -- if (device->pwrscale.policy && device->pwrscale.policy->sleep)
  let device := record device Event.load_policy
  match device.pwrscale.policy with
  | none => device
  | some p =>
    let device := record device Event.load_policy
    match p.sleep with
    | none => device
    | some () =>
      -- device->pwrscale.policy->sleep(device, &device->pwrscale);
      record (record device Event.load_policy) (Event.call Hook.sleep p)

/-- The function `kgsl_pwrscale_wake`. -/
def kgsl_pwrscale_wake (device : kgsl_device) : kgsl_device :=
  let device := record device Event.load_policy
  match device.pwrscale.policy with
  | none => device
  | some p =>
    let device := record device Event.load_policy
    match p.wake with
    | none => device
    | some () =>
      record (record device Event.load_policy) (Event.call Hook.wake p)

/-- The function `kgsl_pwrscale_busy`. -/
def kgsl_pwrscale_busy (device : kgsl_device) : kgsl_device :=
  let device := record device Event.load_policy
  match device.pwrscale.policy with
  | none => device
  | some p =>
    let device := record device Event.load_policy
    match p.busy with
    | none => device
    | some () =>
      record (record device Event.load_policy) (Event.call Hook.busy p)

/-- The function `kgsl_pwrscale_idle`. -/
def kgsl_pwrscale_idle (device : kgsl_device) : kgsl_device :=
  let device := record device Event.load_policy
  match device.pwrscale.policy with
  | none => device
  | some p =>
    let device := record device Event.load_policy
    match p.idle with
    | none => device
    | some () =>
      record (record device Event.load_policy) (Event.call Hook.idle p)

/-! ## Property surface

`PAGE_SIZE` and `SSIZE_MAX` are constants of the platform headers, which are
not among the sources; they are parameters.  The master list
`kgsl_pwrscale_policies` is a parameter as well: the list of the entries
before the terminating NULL. -/

/-- The lookup loop of `pwrscale_policy_store`: the first entry `p` of the
master list with `!strncmp(p->name, buf, strnlen(p->name, PAGE_SIZE))`. -/
def find_policy (PAGE_SIZE : Nat) :
    List kgsl_pwrscale_policy → List Char → Option kgsl_pwrscale_policy
  | [], _ => none
  | p :: ps, buf =>
    if strncmp p.name buf (strnlen p.name PAGE_SIZE) = 0 then some p
    else find_policy PAGE_SIZE ps buf

/-- The function `pwrscale_policy_store`; the result is the `ssize_t` it
returns, `count` being a `size_t`. -/
def pwrscale_policy_store (SSIZE_MAX PAGE_SIZE : Nat)
    (kgsl_pwrscale_policies : List kgsl_pwrscale_policy)
    (device : kgsl_device) (buf : List Char) (count : Nat) :
    Except Fault (Int × kgsl_device) :=
  -- if (!strncmp("none", buf, 4)) { kgsl_pwrscale_detach_policy(device); return count; }
  if strncmp "none".toList buf 4 = 0 then
    match kgsl_pwrscale_detach_policy device with
    | Except.error f => Except.error f
    | Except.ok device => Except.ok (to_ssize_t SSIZE_MAX count, device)
  else
    match find_policy PAGE_SIZE kgsl_pwrscale_policies buf with
    | some policy =>
      -- if (kgsl_pwrscale_attach_policy(device, policy)) return -EIO;
      match kgsl_pwrscale_attach_policy device policy with
      | Except.error f => Except.error f
      | Except.ok (ret, device) =>
        if ret ≠ 0 then Except.ok (- EIO, device)
        else Except.ok (to_ssize_t SSIZE_MAX count, device)
    -- return count;
    | none => Except.ok (to_ssize_t SSIZE_MAX count, device)

/-- The function `pwrscale_policy_show`: the return value, the string left in
`buf`, and the device. -/
def pwrscale_policy_show (PAGE_SIZE : Nat) (device : kgsl_device) (buf : List Char) :
    Int × List Char × kgsl_device :=
  -- if (device->pwrscale.policy)
  let device := record device Event.load_policy
  match device.pwrscale.policy with
  | some p =>
    -- ret = snprintf(buf, PAGE_SIZE, "%s\n", device->pwrscale.policy->name);
    let device := record device Event.load_policy
    let r := snprintf buf 0 (PAGE_SIZE : Int) (cstr p.name ++ "\n".toList)
    (r.2, r.1, device)
  | none =>
    -- ret = snprintf(buf, PAGE_SIZE, "none\n");
    let r := snprintf buf 0 (PAGE_SIZE : Int) "none\n".toList
    (r.2, r.1, device)

/-- The loop of `pwrscale_avail_policies_show` over the remaining entries of
the master list, from the buffer `buf` and the running total `ret`. -/
def avail_policies_loop (PAGE_SIZE : Nat) :
    List kgsl_pwrscale_policy → List Char → Int → List Char × Int
  | [], buf, ret => (buf, ret)
  | p :: ps, buf, ret =>
    -- ret += snprintf(buf + ret, PAGE_SIZE - ret, "%s ", kgsl_pwrscale_policies[i]->name);
    let r := snprintf buf ret.toNat ((PAGE_SIZE : Int) - ret) (cstr p.name ++ " ".toList)
    avail_policies_loop PAGE_SIZE ps r.1 (ret + r.2)

/-- The function `pwrscale_avail_policies_show`: the return value and the
string left in `buf`. -/
def pwrscale_avail_policies_show (PAGE_SIZE : Nat)
    (kgsl_pwrscale_policies : List kgsl_pwrscale_policy)
    (device : kgsl_device) (buf : List Char) : Int × List Char × kgsl_device :=
  let l := avail_policies_loop PAGE_SIZE kgsl_pwrscale_policies buf 0
  -- ret += snprintf(buf + ret, PAGE_SIZE - ret, "none\n");
  let r := snprintf l.1 l.2.toNat ((PAGE_SIZE : Int) - l.2) "none\n".toList
  (l.2 + r.2, r.1, device)

/-! ## Sample descriptors -/

/-- A policy `ondemand` implementing every hook; `init` succeeds. -/
def ondemand : kgsl_pwrscale_policy :=
  { name := "ondemand".toList, init := some 0, close := some (),
    sleep := some (), wake := some (), busy := some (), idle := some () }

/-- A policy `performance` implementing `init`, `close` and `busy`. -/
def performance : kgsl_pwrscale_policy :=
  { name := "performance".toList, init := some 0, close := some (),
    sleep := none, wake := none, busy := some (), idle := none }

/-- A policy whose `init` fails with `-ENOMEM`. -/
def broken : kgsl_pwrscale_policy :=
  { name := "broken".toList, init := some (-12), close := some (),
    sleep := none, wake := none, busy := none, idle := none }

/-- A policy that leaves the `close` pointer NULL. -/
def unclosable : kgsl_pwrscale_policy :=
  { name := "unclosable".toList, init := some 0, close := none,
    sleep := none, wake := none, busy := none, idle := none }

/-- A policy `perf`, whose name is a prefix of `performance`. -/
def perf : kgsl_pwrscale_policy :=
  { name := "perf".toList, init := some 0, close := some (),
    sleep := none, wake := none, busy := none, idle := none }

/-- A policy that leaves the `init` pointer NULL. -/
def uninitialised : kgsl_pwrscale_policy :=
  { name := "lazy".toList, init := none, close := some (),
    sleep := none, wake := none, busy := none, idle := none }

/-- A policy `nonesuch`, whose name begins with the keyword `none`. -/
def nonesuch : kgsl_pwrscale_policy :=
  { name := "nonesuch".toList, init := some 0, close := some (),
    sleep := none, wake := none, busy := none, idle := none }

/-- A device with an empty slot and an empty log. -/
def idle_device : kgsl_device := { pwrscale := { policy := none }, log := [] }

/-- A device whose slot holds `p`, with an empty log. -/
def device_with (p : kgsl_pwrscale_policy) : kgsl_device :=
  { pwrscale := { policy := some p }, log := [] }

/-! ## Vocabulary of the statements -/

/-- The policy in the slot, if any, implements `close`. -/
def closable (device : kgsl_device) : Prop :=
  ∀ P, device.pwrscale.policy = some P → P.close = some ()

instance (device : kgsl_device) : Decidable (closable device) := by
  unfold closable
  cases h : device.pwrscale.policy with
  | none => exact isTrue (by simp)
  | some P =>
    by_cases hc : P.close = some ()
    · exact isTrue (by simpa using hc)
    · exact isFalse (by simpa using hc)

/-- The hook calls `kgsl_pwrscale_detach_policy` adds for a given slot. -/
def detach_calls : Option kgsl_pwrscale_policy → List (Hook × kgsl_pwrscale_policy)
  | none => []
  | some P => [(Hook.close, P)]

/-- What a caller can observe of an operation on the device: whether it
returned and, if so, the slot and the hook calls made so far. -/
def observe (r : Except Fault kgsl_device) :
    Except Fault (kgsl_pwrscale × List (Hook × kgsl_pwrscale_policy)) :=
  match r with
  | Except.error f => Except.error f
  | Except.ok device => Except.ok (device.pwrscale, hook_calls device.log)

/-- What `pwrscale_policy_store` does once the lookup has resolved `Q`. -/
def store_attach (SSIZE_MAX : Nat) (device : kgsl_device) (Q : kgsl_pwrscale_policy)
    (count : Nat) : Except Fault (Int × kgsl_device) :=
  match kgsl_pwrscale_attach_policy device Q with
  | Except.error f => Except.error f
  | Except.ok (ret, device) =>
    if ret ≠ 0 then Except.ok (- EIO, device)
    else Except.ok (to_ssize_t SSIZE_MAX count, device)

/-- The line a read of `policy` shows for a slot: the name of the active
policy, or `none`, and a newline. -/
def policy_text : Option kgsl_pwrscale_policy → List Char
  | some p => cstr p.name ++ "\n".toList
  | none => "none\n".toList

/-- The line a read of `avail_policies` shows for a registry: each name in
registration order followed by one space, then `none` and a newline. -/
def avail_text : List kgsl_pwrscale_policy → List Char
  | [] => "none\n".toList
  | p :: ps => cstr p.name ++ " ".toList ++ avail_text ps

/-- The hook calls an event dispatcher is to make for a slot: the hook `h`,
read from a descriptor by `get`, of the active policy when the slot is occupied
and that hook is present, and nothing otherwise. -/
def dispatch_calls (h : Hook) (get : kgsl_pwrscale_policy → Option Unit) :
    Option kgsl_pwrscale_policy → List (Hook × kgsl_pwrscale_policy)
  | some p => if (get p).isSome then [(h, p)] else []
  | none => []

/-- The events `kgsl_pwrscale_detach_policy` appends to the log when it
returns, for a given slot. -/
def detach_trace : Option kgsl_pwrscale_policy → List Event
  | none => [Event.mutex_lock, Event.load_policy, Event.store_policy none,
      Event.mutex_unlock]
  | some P => [Event.mutex_lock, Event.load_policy, Event.load_policy,
      Event.call Hook.close P, Event.store_policy none, Event.mutex_unlock]

/-- The events `kgsl_pwrscale_attach_policy` appends after its entry test
when it returns `ret`: the implicit detach if the slot was occupied, then the
locked section. -/
def attach_trace (slot : Option kgsl_pwrscale_policy) (Q : kgsl_pwrscale_policy)
    (ret : Int) : List Event :=
  (match slot with
   | none => []
   | some P => detach_trace (some P))
  ++ [Event.mutex_lock, Event.store_policy (some Q), Event.load_policy,
      Event.call Hook.init Q]
  ++ (if ret ≠ 0 then [Event.store_policy none] else [])
  ++ [Event.mutex_unlock]

/-- Whether every read and every write of the slot in a trace happens while
the mutex is held; `held` tells whether it is held when the trace starts. -/
def slot_accesses_locked : Bool → List Event → Bool
  | _, [] => true
  | _, Event.mutex_lock :: es => slot_accesses_locked true es
  | _, Event.mutex_unlock :: es => slot_accesses_locked false es
  | held, Event.load_policy :: es => held && slot_accesses_locked held es
  | held, Event.store_policy _ :: es => held && slot_accesses_locked held es
  | held, Event.call _ _ :: es => slot_accesses_locked held es
  | held, Event.kobject_put :: es => slot_accesses_locked held es

/-- Whether every write of the slot in a trace happens while the mutex is
held; `held` tells whether it is held when the trace starts. -/
def slot_writes_locked : Bool → List Event → Bool
  | _, [] => true
  | _, Event.mutex_lock :: es => slot_writes_locked true es
  | _, Event.mutex_unlock :: es => slot_writes_locked false es
  | held, Event.store_policy _ :: es => held && slot_writes_locked held es
  | held, Event.load_policy :: es => slot_writes_locked held es
  | held, Event.call _ _ :: es => slot_writes_locked held es
  | held, Event.kobject_put :: es => slot_writes_locked held es

/-- The mutex along a trace, from `held`.  The result is `none` when the mutex
is acquired while held, released while free, or when an `init` or `close` hook
is called while it is free; otherwise it tells whether the mutex is held at
the end of the trace. -/
def lock_run : Bool → List Event → Option Bool
  | held, [] => some held
  | held, Event.mutex_lock :: es => if held then none else lock_run true es
  | held, Event.mutex_unlock :: es => if held then lock_run false es else none
  | held, Event.call h _ :: es =>
    if (h = Hook.init ∨ h = Hook.close) ∧ held = false then none else lock_run held es
  | held, Event.load_policy :: es => lock_run held es
  | held, Event.store_policy _ :: es => lock_run held es
  | held, Event.kobject_put :: es => lock_run held es

/-- The comparison of the lookup loop succeeds for `p` on `buf`: the name of
`p`, over its length capped at `PAGE_SIZE`, is a prefix of `buf`. -/
def name_matches (PAGE_SIZE : Nat) (p : kgsl_pwrscale_policy) (buf : List Char) : Prop :=
  (cstr p.name).take PAGE_SIZE <+: buf

instance (PAGE_SIZE : Nat) (p : kgsl_pwrscale_policy) (buf : List Char) :
    Decidable (name_matches PAGE_SIZE p buf) := by
  unfold name_matches
  infer_instance

/-- The events `pwrscale_policy_show` appends to the log, for a given slot. -/
def show_trace : Option kgsl_pwrscale_policy → List Event
  | none => [Event.load_policy]
  | some _ => [Event.load_policy, Event.load_policy]

/-- The events an event dispatcher appends to the log, for the hook `h`, read
from a descriptor by `get`, and a given slot. -/
def dispatch_trace (h : Hook) (get : kgsl_pwrscale_policy → Option Unit) :
    Option kgsl_pwrscale_policy → List Event
  | none => [Event.load_policy]
  | some p =>
    match get p with
    | none => [Event.load_policy, Event.load_policy]
    | some _ => [Event.load_policy, Event.load_policy, Event.load_policy, Event.call h p]

/-- One operation of a sequential history on the device. -/
inductive Op where
  | attach (policy : kgsl_pwrscale_policy)
  | detach
  | write (buf : List Char) (count : Nat)
  | sleep
  | wake
  | busy
  | idle
  deriving DecidableEq, Repr

/-- Perform one operation on the device. -/
def step (SSIZE_MAX PAGE_SIZE : Nat) (registry : List kgsl_pwrscale_policy)
    (device : kgsl_device) : Op → Except Fault kgsl_device
  | Op.attach policy =>
    match kgsl_pwrscale_attach_policy device policy with
    | Except.error f => Except.error f
    | Except.ok (_, device) => Except.ok device
  | Op.detach => kgsl_pwrscale_detach_policy device
  | Op.write buf count =>
    match pwrscale_policy_store SSIZE_MAX PAGE_SIZE registry device buf count with
    | Except.error f => Except.error f
    | Except.ok (_, device) => Except.ok device
  | Op.sleep => Except.ok (kgsl_pwrscale_sleep device)
  | Op.wake => Except.ok (kgsl_pwrscale_wake device)
  | Op.busy => Except.ok (kgsl_pwrscale_busy device)
  | Op.idle => Except.ok (kgsl_pwrscale_idle device)

/-- Perform a sequence of operations one after another. -/
def run (SSIZE_MAX PAGE_SIZE : Nat) (registry : List kgsl_pwrscale_policy) :
    List Op → kgsl_device → Except Fault kgsl_device
  | [], device => Except.ok device
  | op :: ops, device =>
    match step SSIZE_MAX PAGE_SIZE registry device op with
    | Except.error f => Except.error f
    | Except.ok device => run SSIZE_MAX PAGE_SIZE registry ops device

/-- The pairing of `init` and `close` along a sequence of hook calls, from the
policy `slot` that is open (initialised with success and not closed since) at
the start.  An `init` call is allowed only when no policy is open, and opens
its policy if that `init` returns 0; a `close` call is allowed only on the
open policy, and closes it; the other hooks change nothing.  The result is
`none` when a call is not allowed, and the open policy at the end otherwise. -/
def pairing : Option kgsl_pwrscale_policy → List (Hook × kgsl_pwrscale_policy) →
    Option (Option kgsl_pwrscale_policy)
  | slot, [] => some slot
  | slot, (Hook.init, P) :: calls =>
    if slot = none then pairing (if P.init = some 0 then some P else none) calls
    else none
  | slot, (Hook.close, P) :: calls =>
    if slot = some P then pairing none calls else none
  | slot, (_, _) :: calls => pairing slot calls

/-- The policy that is open after a sequence of hook calls, from the policy
`slot` open at the start: the policy of the most recent `init` call if that
`init` returned 0 and no `close` was called since. -/
def open_policy : Option kgsl_pwrscale_policy → List (Hook × kgsl_pwrscale_policy) →
    Option kgsl_pwrscale_policy
  | slot, [] => slot
  | _, (Hook.init, P) :: calls =>
    open_policy (if P.init = some 0 then some P else none) calls
  | _, (Hook.close, _) :: calls => open_policy none calls
  | slot, (_, _) :: calls => open_policy slot calls

/-- The device a history reaches: the device returned when the history runs
to its end, and the device at the NULL call when it stops there. -/
def reached : Except Fault kgsl_device → kgsl_device
  | Except.ok device => device
  | Except.error (Fault.null_call _ device) => device

/-- The device an interleaving reaches: the device at its end, or at the
NULL call when it stops there. -/
def reached_device : Except Fault (List Thread × kgsl_device) → kgsl_device
  | Except.ok (_, device) => device
  | Except.error (Fault.null_call _ device) => device

/-- The single owner of the slot along a sequence of hook calls, from the
policy `slot` that is open at the start.  An `init` call opens its policy if
that `init` returns 0 and leaves nothing open otherwise, whatever was open
before; a `close` call is allowed only on the open policy, and closes it; the
other hooks change nothing.  The result is `none` when a `close` call is not
allowed, and the open policy at the end otherwise. -/
def single_owner : Option kgsl_pwrscale_policy → List (Hook × kgsl_pwrscale_policy) →
    Option (Option kgsl_pwrscale_policy)
  | slot, [] => some slot
  | _, (Hook.init, P) :: calls =>
    single_owner (if P.init = some 0 then some P else none) calls
  | slot, (Hook.close, P) :: calls =>
    if slot = some P then single_owner none calls else none
  | slot, (_, _) :: calls => single_owner slot calls

/-- The policy a call in progress is attaching implements `init`. -/
def initialisable : Thread → Prop
  | Thread.attach_entry policy => policy.init ≠ none
  | Thread.attach_detach policy => policy.init ≠ none
  | Thread.attach_section policy => policy.init ≠ none
  | Thread.detach_entry => True
  | Thread.returned => True

instance (t : Thread) : Decidable (initialisable t) := by
  cases t <;> unfold initialisable <;> infer_instance

/-- The policies the attach operations of a history name. -/
def attached : List Op → List kgsl_pwrscale_policy
  | [] => []
  | Op.attach Q :: ops => Q :: attached ops
  | _ :: ops => attached ops

/-- Every policy an operation can attach, directly or through the registry,
implements `init` and `close`. -/
def hooked (registry : List kgsl_pwrscale_policy) (ops : List Op) : Prop :=
  ∀ Q ∈ registry ++ attached ops, Q.init ≠ none ∧ Q.close = some ()

instance (registry : List kgsl_pwrscale_policy) (ops : List Op) :
    Decidable (hooked registry ops) := by
  unfold hooked
  infer_instance

/-! ## Lemmas on the log and on the controller -/

theorem hook_calls_append (a b : List Event) :
    hook_calls (a ++ b) = hook_calls a ++ hook_calls b := by
  simp [hook_calls]

theorem detach_empty (device : kgsl_device) (h : device.pwrscale.policy = none) :
    kgsl_pwrscale_detach_policy device = Except.ok
      { pwrscale := { policy := none },
        log := device.log ++ [Event.mutex_lock, Event.load_policy,
          Event.store_policy none, Event.mutex_unlock] } := by
  simp [kgsl_pwrscale_detach_policy, record, set_policy, h]

theorem detach_occupied (device : kgsl_device) (P : kgsl_pwrscale_policy)
    (h : device.pwrscale.policy = some P) (hc : P.close = some ()) :
    kgsl_pwrscale_detach_policy device = Except.ok
      { pwrscale := { policy := none },
        log := device.log ++ [Event.mutex_lock, Event.load_policy, Event.load_policy,
          Event.call Hook.close P, Event.store_policy none, Event.mutex_unlock] } := by
  simp [kgsl_pwrscale_detach_policy, record, set_policy, h, hc]

theorem detach_null_close (device : kgsl_device) (P : kgsl_pwrscale_policy)
    (h : device.pwrscale.policy = some P) (hc : P.close = none) :
    kgsl_pwrscale_detach_policy device = Except.error (Fault.null_call Hook.close
      (kgsl_device.mk device.pwrscale
        (device.log ++ [Event.mutex_lock, Event.load_policy, Event.load_policy]))) := by
  simp [kgsl_pwrscale_detach_policy, record, h, hc]

theorem detach_ok (device : kgsl_device) (hc : closable device) :
    ∃ device1, kgsl_pwrscale_detach_policy device = Except.ok device1 ∧
      device1.pwrscale.policy = none ∧
      hook_calls device1.log
        = hook_calls device.log ++ detach_calls device.pwrscale.policy := by
  cases h : device.pwrscale.policy with
  | none =>
    refine ⟨_, detach_empty device h, rfl, ?_⟩
    simp [hook_calls, detach_calls, Event.hook_call]
  | some P =>
    refine ⟨_, detach_occupied device P h (hc P h), rfl, ?_⟩
    simp [hook_calls, detach_calls, Event.hook_call]

theorem attach_ok (device : kgsl_device) (Q : kgsl_pwrscale_policy) (ret : Int)
    (hc : closable device) (hQ : Q.init = some ret) :
    ∃ device1, kgsl_pwrscale_attach_policy device Q = Except.ok (ret, device1) ∧
      device1.pwrscale.policy = (if ret ≠ 0 then none else some Q) ∧
      hook_calls device1.log
        = hook_calls device.log ++ detach_calls device.pwrscale.policy
            ++ [(Hook.init, Q)] := by
  cases h : device.pwrscale.policy with
  | none =>
    by_cases hr : ret = 0 <;>
      simp [kgsl_pwrscale_attach_policy, record, set_policy, h, hQ, hr, hook_calls,
        detach_calls, Event.hook_call]
  | some P =>
    have hd := detach_occupied (record device Event.load_policy) P
      (by simpa [record] using h) (hc P h)
    simp only [record] at hd
    by_cases hr : ret = 0 <;>
      simp [kgsl_pwrscale_attach_policy, hd, record, set_policy, h, hQ, hr, hook_calls,
        detach_calls, Event.hook_call]

theorem attach_null_init (device : kgsl_device) (Q : kgsl_pwrscale_policy)
    (hc : closable device) (hQ : Q.init = none) :
    ∃ device1, kgsl_pwrscale_attach_policy device Q
        = Except.error (Fault.null_call Hook.init device1) ∧
      device1.pwrscale.policy = some Q ∧
      hook_calls device1.log
        = hook_calls device.log ++ detach_calls device.pwrscale.policy := by
  cases h : device.pwrscale.policy with
  | none =>
    simp [kgsl_pwrscale_attach_policy, record, set_policy, h, hQ, hook_calls,
      detach_calls, Event.hook_call]
  | some P =>
    have hd := detach_occupied (record device Event.load_policy) P
      (by simpa [record] using h) (hc P h)
    simp only [record] at hd
    simp [kgsl_pwrscale_attach_policy, hd, record, set_policy, h, hQ, hook_calls,
      detach_calls, Event.hook_call]

/-! ## Lemmas on the string routines and on the lookup loop -/

theorem strncmp_strnlen_eq_zero_iff (name buf : List Char) (n : Nat) :
    strncmp name buf (strnlen name n) = 0 ↔ (cstr name).take n <+: buf := by
  induction name generalizing buf n with
  | nil => simp [strnlen, strncmp, cstr]
  | cons c cs ih =>
    by_cases hn : n = 0
    · subst hn
      simp [strnlen, strncmp]
    by_cases hc : c = NUL
    · simp [strnlen, strncmp, cstr, hc]
    obtain ⟨m, rfl⟩ : ∃ m, n = m + 1 := ⟨n - 1, by omega⟩
    have hlen : strnlen (c :: cs) (m + 1) = strnlen cs m + 1 := by
      simp [strnlen, hc, Nat.add_comm]
    rw [hlen]
    have hne0 : ∀ x y : Char, ¬ (if x < y then (-1 : Int) else 1) = 0 := by
      intro x y
      split <;> simp
    cases buf with
    | nil =>
      simp [strncmp, cstr, hc, hne0]
    | cons b bs =>
      by_cases hb : c = b
      · subst hb
        simp [strncmp, cstr, hc, ih, List.cons_prefix_cons]
      · simp [strncmp, cstr, hc, hb, hne0, List.cons_prefix_cons]

theorem strncmp_none_eq_zero_iff (buf : List Char) :
    strncmp "none".toList buf 4 = 0 ↔ "none".toList <+: buf := by
  have h := strncmp_strnlen_eq_zero_iff "none".toList buf 4
  have h4 : strnlen "none".toList 4 = 4 := by decide
  have hc : (cstr "none".toList).take 4 = "none".toList := by decide
  rw [h4, hc] at h
  exact h

theorem find_policy_some (n : Nat) (registry : List kgsl_pwrscale_policy)
    (buf : List Char) (Q : kgsl_pwrscale_policy)
    (h : find_policy n registry buf = some Q) :
    Q ∈ registry ∧ (cstr Q.name).take n <+: buf := by
  induction registry with
  | nil => simp [find_policy] at h
  | cons p ps ih =>
    by_cases hp : strncmp p.name buf (strnlen p.name n) = 0
    · simp only [find_policy, hp, if_true, Option.some.injEq] at h
      subst h
      exact ⟨List.mem_cons_self _ _, (strncmp_strnlen_eq_zero_iff _ _ _).1 hp⟩
    · simp only [find_policy, hp, if_false] at h
      exact ⟨List.mem_cons_of_mem _ (ih h).1, (ih h).2⟩

theorem find_policy_eq_none_iff (n : Nat) (registry : List kgsl_pwrscale_policy)
    (buf : List Char) :
    find_policy n registry buf = none ↔
      ∀ p ∈ registry, ¬ (cstr p.name).take n <+: buf := by
  induction registry with
  | nil => simp [find_policy]
  | cons p ps ih =>
    by_cases hp : strncmp p.name buf (strnlen p.name n) = 0
    · have hp1 := (strncmp_strnlen_eq_zero_iff _ _ _).1 hp
      simp [find_policy, hp, hp1]
    · have hp1 : ¬ (cstr p.name).take n <+: buf :=
        fun h => hp ((strncmp_strnlen_eq_zero_iff _ _ _).2 h)
      simp [find_policy, hp, hp1, ih]

theorem to_ssize_t_of_le (SSIZE_MAX count : Nat) (h : count ≤ SSIZE_MAX) :
    to_ssize_t SSIZE_MAX count = (count : Int) := by
  have hm : count % (2 * SSIZE_MAX + 2) = count := Nat.mod_eq_of_lt (by omega)
  simp [to_ssize_t, hm, h]

theorem none_prefix_iff_take (buf : List Char) :
    "none".toList <+: buf ↔ buf.take 4 = "none".toList := by
  rw [List.prefix_iff_eq_take]
  exact ⟨fun h => h.symm, fun h => h.symm⟩

theorem store_of_keyword (SSIZE_MAX PAGE_SIZE : Nat) (registry : List kgsl_pwrscale_policy)
    (device : kgsl_device) (buf : List Char) (count : Nat)
    (h : strncmp "none".toList buf 4 = 0) :
    pwrscale_policy_store SSIZE_MAX PAGE_SIZE registry device buf count
      = (match kgsl_pwrscale_detach_policy device with
         | Except.error f => Except.error f
         | Except.ok device => Except.ok (to_ssize_t SSIZE_MAX count, device)) := by
  unfold pwrscale_policy_store
  rw [if_pos h]

theorem store_of_name (SSIZE_MAX PAGE_SIZE : Nat) (registry : List kgsl_pwrscale_policy)
    (device : kgsl_device) (buf : List Char) (count : Nat)
    (h : ¬ strncmp "none".toList buf 4 = 0) :
    pwrscale_policy_store SSIZE_MAX PAGE_SIZE registry device buf count
      = (match find_policy PAGE_SIZE registry buf with
         | some policy =>
           match kgsl_pwrscale_attach_policy device policy with
           | Except.error f => Except.error f
           | Except.ok (ret, device) =>
             if ret ≠ 0 then Except.ok (- EIO, device)
             else Except.ok (to_ssize_t SSIZE_MAX count, device)
         | none => Except.ok (to_ssize_t SSIZE_MAX count, device)) := by
  unfold pwrscale_policy_store
  rw [if_neg h]

theorem keyword_iff_take (buf : List Char) :
    strncmp "none".toList buf 4 = 0 ↔ buf.take 4 = "none".toList :=
  (strncmp_none_eq_zero_iff buf).trans (none_prefix_iff_take buf)

/-! ## Attach: rollback and swap -/

/-- C1, as stated, fails: `broken.init` returns a non-zero value, yet on a
device whose slot holds a policy with a NULL `close` pointer the attach does
not return at all; the implicit detach calls the NULL pointer. -/
theorem attach_rollback_unclosable_slot :
    broken.init = some (-12) ∧ ((-12 : Int) ≠ 0) ∧
    kgsl_pwrscale_attach_policy (device_with unclosable) broken
      = Except.error (Fault.null_call Hook.close
          (kgsl_device.mk (kgsl_pwrscale.mk (some unclosable))
          [Event.load_policy, Event.mutex_lock, Event.load_policy, Event.load_policy])) ∧
    ¬ ∃ ret device1,
        kgsl_pwrscale_attach_policy (device_with unclosable) broken
          = Except.ok (ret, device1) ∧ ret ≠ 0 ∧ device1.pwrscale.policy = none := by
  have h : kgsl_pwrscale_attach_policy (device_with unclosable) broken
      = Except.error (Fault.null_call Hook.close
          (kgsl_device.mk (kgsl_pwrscale.mk (some unclosable))
          [Event.load_policy, Event.mutex_lock, Event.load_policy, Event.load_policy])) := by decide
  refine ⟨rfl, by decide, h, ?_⟩
  rintro ⟨ret, device1, h1, -, -⟩
  rw [h] at h1
  cases h1

/-- C1, amended: for every device state whose slot is empty or holds a policy
that implements `close`, and every policy `Q` whose `init` returns a non-zero
value `ret`, `kgsl_pwrscale_attach_policy` returns `ret` and leaves the slot
empty; the slot holds no policy `P` afterwards. -/
theorem attach_init_failure_rolls_back (device : kgsl_device)
    (Q : kgsl_pwrscale_policy) (ret : Int)
    (hQ : Q.init = some ret) (hret : ret ≠ 0) (hc : closable device) :
    ∃ device1, kgsl_pwrscale_attach_policy device Q = Except.ok (ret, device1) ∧
      ret ≠ 0 ∧ device1.pwrscale.policy = none ∧
      ∀ P, device1.pwrscale.policy ≠ some P := by
  obtain ⟨device1, h1, h2, -⟩ := attach_ok device Q ret hc hQ
  rw [if_pos hret] at h2
  exact ⟨device1, h1, hret, h2, fun P hP => by rw [h2] at hP; cases hP⟩

/-- The rollback on a slot holding `performance` when `broken`, whose `init`
returns `-12`, is attached. -/
theorem attach_init_failure_rolls_back_witness :
    ∃ device1, kgsl_pwrscale_attach_policy (device_with performance) broken
        = Except.ok (-12, device1) ∧
      (-12 : Int) ≠ 0 ∧ device1.pwrscale.policy = none ∧
      ∀ P, device1.pwrscale.policy ≠ some P :=
  attach_init_failure_rolls_back (device_with performance) broken (-12) rfl (by decide)
    (by decide)

/-- C2, as stated, fails: `ondemand.init` returns 0, yet on a device whose
slot holds a policy with a NULL `close` pointer the attach does not return 0;
it does not return. -/
theorem attach_swap_unclosable_slot :
    ondemand.init = some 0 ∧
    ¬ ∃ device1, kgsl_pwrscale_attach_policy (device_with unclosable) ondemand
        = Except.ok (0, device1) := by
  have h : kgsl_pwrscale_attach_policy (device_with unclosable) ondemand
      = Except.error (Fault.null_call Hook.close
          (kgsl_device.mk (kgsl_pwrscale.mk (some unclosable))
          [Event.load_policy, Event.mutex_lock, Event.load_policy, Event.load_policy])) := by decide
  refine ⟨rfl, ?_⟩
  rintro ⟨device1, h1⟩
  rw [h] at h1
  cases h1

/-- C2, amended: for every policy `Q` whose `init` returns 0 and every device
state whose slot is empty or holds a policy that implements `close`,
`kgsl_pwrscale_attach_policy` returns 0 and leaves the slot holding `Q`; the
hook calls it makes are exactly `Q.init` when the slot was empty, and exactly
`P.close` followed by `Q.init` when the slot held `P` (also when `Q = P`). -/
theorem attach_success_swaps (device : kgsl_device) (Q : kgsl_pwrscale_policy)
    (hQ : Q.init = some 0) (hc : closable device) :
    ∃ device1, kgsl_pwrscale_attach_policy device Q = Except.ok (0, device1) ∧
      device1.pwrscale.policy = some Q ∧
      hook_calls device1.log = hook_calls device.log ++
        (match device.pwrscale.policy with
         | none => [(Hook.init, Q)]
         | some P => [(Hook.close, P), (Hook.init, Q)]) := by
  obtain ⟨device1, h1, h2, h3⟩ := attach_ok device Q 0 hc hQ
  refine ⟨device1, h1, by simpa using h2, ?_⟩
  rw [h3]
  cases device.pwrscale.policy <;> simp [detach_calls]

/-- The swap from `performance` to `ondemand`. -/
theorem attach_success_swaps_witness :
    ∃ device1, kgsl_pwrscale_attach_policy (device_with performance) ondemand
        = Except.ok (0, device1) ∧
      device1.pwrscale.policy = some ondemand ∧
      hook_calls device1.log = hook_calls (device_with performance).log ++
        (match (device_with performance).pwrscale.policy with
         | none => [(Hook.init, ondemand)]
         | some P => [(Hook.close, P), (Hook.init, ondemand)]) :=
  attach_success_swaps (device_with performance) ondemand rfl (by decide)

/-! ## Writes to `policy`: the keyword and unknown names -/

/-- C3, as stated, fails: with the slot holding a policy whose `close` pointer
is NULL, a write of `none` does not return `count`; the detach calls the NULL
pointer. -/
theorem store_none_unclosable_slot :
    ("none".toList).take 4 = "none".toList ∧
    ¬ ∃ device1,
        pwrscale_policy_store 2147483647 4096 [] (device_with unclosable) "none".toList 4
          = Except.ok (4, device1) := by
  have h : pwrscale_policy_store 2147483647 4096 [] (device_with unclosable) "none".toList 4
      = Except.error (Fault.null_call Hook.close
          (kgsl_device.mk (kgsl_pwrscale.mk (some unclosable))
          [Event.mutex_lock, Event.load_policy, Event.load_policy])) := by decide
  refine ⟨by decide, ?_⟩
  rintro ⟨device1, h1⟩
  rw [h] at h1
  cases h1

/-- C3, amended: for every registry, every written buffer whose first four
characters are exactly `none`, and every slot state that is empty or holds a
policy implementing `close`, `pwrscale_policy_store` leaves the slot empty and
returns `count`; it calls `close` of the previously active policy exactly once
if the slot was occupied and no hook if it was empty, calls no `init`, and its
outcome is the same for every registry. -/
theorem store_none_detaches (SSIZE_MAX PAGE_SIZE : Nat) (registry : List kgsl_pwrscale_policy)
    (device : kgsl_device) (buf : List Char) (count : Nat)
    (hbuf : buf.take 4 = "none".toList) (hc : closable device) :
    ∃ device1,
      pwrscale_policy_store SSIZE_MAX PAGE_SIZE registry device buf count
        = Except.ok (to_ssize_t SSIZE_MAX count, device1) ∧
      device1.pwrscale.policy = none ∧
      hook_calls device1.log = hook_calls device.log ++
        (match device.pwrscale.policy with
         | none => []
         | some P => [(Hook.close, P)]) ∧
      ∀ registry1, pwrscale_policy_store SSIZE_MAX PAGE_SIZE registry1 device buf count
        = Except.ok (to_ssize_t SSIZE_MAX count, device1) := by
  have hn : strncmp "none".toList buf 4 = 0 :=
    (strncmp_none_eq_zero_iff buf).2 ((none_prefix_iff_take buf).2 hbuf)
  obtain ⟨device1, h1, h2, h3⟩ := detach_ok device hc
  refine ⟨device1, ?_, h2, ?_, ?_⟩
  · rw [store_of_keyword _ _ _ _ _ _ hn, h1]
  · rw [h3]
    cases device.pwrscale.policy <;> simp [detach_calls]
  · intro registry1
    rw [store_of_keyword _ _ _ _ _ _ hn, h1]

/-- The write of `none` and a newline on a slot holding `ondemand`. -/
theorem store_none_detaches_witness :
    ∃ device1,
      pwrscale_policy_store 2147483647 4096 [ondemand, performance] (device_with ondemand)
          "none\n".toList 5 = Except.ok (to_ssize_t 2147483647 5, device1) ∧
      device1.pwrscale.policy = none ∧
      hook_calls device1.log = hook_calls (device_with ondemand).log ++
        (match (device_with ondemand).pwrscale.policy with
         | none => []
         | some P => [(Hook.close, P)]) ∧
      ∀ registry1, pwrscale_policy_store 2147483647 4096 registry1 (device_with ondemand)
          "none\n".toList 5 = Except.ok (to_ssize_t 2147483647 5, device1) :=
  store_none_detaches 2147483647 4096 [ondemand, performance] (device_with ondemand)
    "none\n".toList 5 (by decide) (by decide)

/-- C5: `kgsl_pwrscale_detach_policy` on a device whose slot is empty returns,
calls no hook and leaves the slot empty; and for every starting state, detach
applied twice gives the same final slot and the same hook calls as detach
applied once. -/
theorem detach_idempotent (device : kgsl_device) :
    (device.pwrscale.policy = none →
      ∃ device1, kgsl_pwrscale_detach_policy device = Except.ok device1 ∧
        device1.pwrscale.policy = none ∧
        hook_calls device1.log = hook_calls device.log) ∧
    observe (kgsl_pwrscale_detach_policy device >>= kgsl_pwrscale_detach_policy)
      = observe (kgsl_pwrscale_detach_policy device) := by
  constructor
  · intro hd
    refine ⟨_, detach_empty device hd, rfl, ?_⟩
    simp [hook_calls, Event.hook_call]
  · cases h : device.pwrscale.policy with
    | none =>
      rw [detach_empty device h]
      simp [bind, Except.bind, detach_empty, observe, hook_calls, Event.hook_call]
    | some P =>
      cases hcl : P.close with
      | none =>
        rw [detach_null_close device P h hcl]
        rfl
      | some u =>
        rw [detach_occupied device P h hcl]
        simp [bind, Except.bind, detach_empty, observe, hook_calls, Event.hook_call]

/-- Detach on the empty device, and detach twice on a slot holding `ondemand`. -/
theorem detach_idempotent_witness :
    (∃ device1, kgsl_pwrscale_detach_policy idle_device = Except.ok device1 ∧
        device1.pwrscale.policy = none ∧
        hook_calls device1.log = hook_calls idle_device.log) ∧
    observe (kgsl_pwrscale_detach_policy (device_with ondemand)
        >>= kgsl_pwrscale_detach_policy)
      = observe (kgsl_pwrscale_detach_policy (device_with ondemand)) :=
  ⟨(detach_idempotent idle_device).1 rfl, (detach_idempotent (device_with ondemand)).2⟩

/-! ## Writes to `policy`: name resolution and the result -/

/-- C6, as stated, fails: with `ondemand` registered, the written string
`ondemand` followed by a newline is not equal to the registered name, which is
only a proper prefix of it, yet the write resolves to `ondemand` and attaches
it. -/
theorem store_attaches_on_longer_string :
    ("ondemand\n".toList).take 4 ≠ "none".toList ∧
    ondemand.name ≠ "ondemand\n".toList ∧
    ondemand.name <+: "ondemand\n".toList ∧
    find_policy 4096 [ondemand] "ondemand\n".toList = some ondemand ∧
    ∃ device1, pwrscale_policy_store 2147483647 4096 [ondemand] idle_device "ondemand\n".toList 9
        = Except.ok (9, device1) ∧
      device1.pwrscale.policy = some ondemand ∧
      hook_calls device1.log = [(Hook.init, ondemand)] := by
  refine ⟨by decide, by decide, by decide, by decide, ?_⟩
  have h : pwrscale_policy_store 2147483647 4096 [ondemand] idle_device "ondemand\n".toList 9
      = Except.ok (9, kgsl_device.mk (kgsl_pwrscale.mk (some ondemand))
          [Event.load_policy, Event.mutex_lock, Event.store_policy (some ondemand),
            Event.load_policy, Event.call Hook.init ondemand, Event.mutex_unlock]) := by
    decide
  exact ⟨_, h, rfl, by decide⟩

/-- C6, amended: for every registry and every written string that does not
begin with the keyword `none`, the policy that `pwrscale_policy_store` resolves
and attaches (if any) is a registered policy whose name (its first `PAGE_SIZE`
characters) is a prefix of the written string; when nothing resolves the write
returns `count` and changes nothing; and a string of which some registered
name is a prefix, proper or not, does resolve to a policy. -/
theorem store_resolves_prefixed_name (SSIZE_MAX PAGE_SIZE : Nat)
    (registry : List kgsl_pwrscale_policy) (device : kgsl_device)
    (buf : List Char) (count : Nat) (hnone : buf.take 4 ≠ "none".toList) :
    (∀ Q, find_policy PAGE_SIZE registry buf = some Q →
      Q ∈ registry ∧ (cstr Q.name).take PAGE_SIZE <+: buf ∧
      pwrscale_policy_store SSIZE_MAX PAGE_SIZE registry device buf count
        = store_attach SSIZE_MAX device Q count) ∧
    (find_policy PAGE_SIZE registry buf = none →
      pwrscale_policy_store SSIZE_MAX PAGE_SIZE registry device buf count
        = Except.ok (to_ssize_t SSIZE_MAX count, device)) ∧
    ((∃ p ∈ registry, (cstr p.name).take PAGE_SIZE <+: buf) →
      ∃ Q, find_policy PAGE_SIZE registry buf = some Q) := by
  have hn : ¬ strncmp "none".toList buf 4 = 0 := fun h => hnone ((keyword_iff_take buf).1 h)
  refine ⟨?_, ?_, ?_⟩
  · intro Q hQ
    obtain ⟨h1, h2⟩ := find_policy_some PAGE_SIZE registry buf Q hQ
    refine ⟨h1, h2, ?_⟩
    rw [store_of_name _ _ _ _ _ _ hn, hQ]
    rfl
  · intro hf
    rw [store_of_name _ _ _ _ _ _ hn, hf]
  · rintro ⟨p, hp, hpre⟩
    cases hf : find_policy PAGE_SIZE registry buf with
    | none => exact absurd hpre ((find_policy_eq_none_iff _ _ _).1 hf p hp)
    | some Q => exact ⟨Q, rfl⟩

/-- The write of `performance` and a newline resolves to `performance`. -/
theorem store_resolves_prefixed_name_witness :
    performance ∈ [ondemand, performance] ∧
    (cstr performance.name).take 4096 <+: "performance\n".toList ∧
    pwrscale_policy_store 2147483647 4096 [ondemand, performance] idle_device
        "performance\n".toList 12 = store_attach 2147483647 idle_device performance 12 :=
  (store_resolves_prefixed_name 2147483647 4096 [ondemand, performance] idle_device
    "performance\n".toList 12 (by decide)).1 performance (by decide)

/-- C7, as stated, fails, in three ways.  The write of `lazy` is not a `none`
request and resolves to a registered policy whose `init` pointer is NULL, so
no `init` returns non-zero; yet the write returns neither `count` nor `-EIO`:
the attach calls the NULL pointer.  The write of `ondemand` on a slot holding
a policy whose `close` pointer is NULL does not return either.  And the write
of `bogus`, which resolves to no policy, with `count = 4294967291` on a
platform whose `SSIZE_MAX` is `2147483647` returns `-EIO`. -/
theorem store_null_init_does_not_return :
    (("lazy".toList).take 4 ≠ "none".toList ∧
      find_policy 4096 [uninitialised] "lazy".toList = some uninitialised ∧
      uninitialised.init = none ∧
      pwrscale_policy_store 2147483647 4096 [uninitialised] idle_device "lazy".toList 4
        = Except.error (Fault.null_call Hook.init
            (kgsl_device.mk (kgsl_pwrscale.mk (some uninitialised))
              [Event.load_policy, Event.mutex_lock,
                Event.store_policy (some uninitialised), Event.load_policy]))) ∧
    (find_policy 4096 [ondemand] "ondemand".toList = some ondemand ∧
      ondemand.init = some 0 ∧
      pwrscale_policy_store 2147483647 4096 [ondemand] (device_with unclosable)
          "ondemand".toList 8
        = Except.error (Fault.null_call Hook.close
            (kgsl_device.mk (kgsl_pwrscale.mk (some unclosable))
              [Event.load_policy, Event.mutex_lock, Event.load_policy,
                Event.load_policy]))) ∧
    (("bogus".toList).take 4 ≠ "none".toList ∧
      find_policy 4096 [ondemand] "bogus".toList = none ∧
      pwrscale_policy_store 2147483647 4096 [ondemand] idle_device "bogus".toList
          4294967291
        = Except.ok (- EIO, idle_device)) := by
  decide

/-- C7, amended: for every registry, slot state and written buffer such that
the hooks the write calls are present (`close` of the policy in the slot when
the write is a `none` request or resolves to a policy, `init` of the policy it
resolves to) and every `count` not above `SSIZE_MAX`, `pwrscale_policy_store`
returns; it returns `-EIO` if and only if the buffer does not begin with
`none`, it resolves to a registered policy, and that policy's `init` returns
non-zero; in every other case it returns `count`.  The value returned by
`init` is not the value returned. -/
theorem store_result (SSIZE_MAX PAGE_SIZE : Nat) (registry : List kgsl_pwrscale_policy)
    (device : kgsl_device) (buf : List Char) (count : Nat)
    (hc : (buf.take 4 = "none".toList ∨ find_policy PAGE_SIZE registry buf ≠ none) →
      closable device)
    (hi : buf.take 4 ≠ "none".toList →
      ∀ Q, find_policy PAGE_SIZE registry buf = some Q → Q.init ≠ none)
    (hcount : count ≤ SSIZE_MAX) :
    ∃ ret device1,
      pwrscale_policy_store SSIZE_MAX PAGE_SIZE registry device buf count
        = Except.ok (ret, device1) ∧
      (ret = - EIO ↔
        (buf.take 4 ≠ "none".toList ∧
          ∃ Q r, find_policy PAGE_SIZE registry buf = some Q ∧
            Q.init = some r ∧ r ≠ 0)) ∧
      (ret ≠ - EIO → ret = (count : Int)) := by
  have hneg : (count : Int) ≠ - EIO := by
    have : (0 : Int) ≤ (count : Int) := Int.natCast_nonneg count
    unfold EIO
    omega
  have hs := to_ssize_t_of_le SSIZE_MAX count hcount
  by_cases hn : strncmp "none".toList buf 4 = 0
  · have hk : buf.take 4 = "none".toList := (keyword_iff_take buf).1 hn
    obtain ⟨device1, h1, -, -⟩ := detach_ok device (hc (Or.inl hk))
    refine ⟨(count : Int), device1, ?_, ?_, fun _ => rfl⟩
    · rw [store_of_keyword _ _ _ _ _ _ hn, h1, hs]
    · constructor
      · intro h
        exact absurd h hneg
      · rintro ⟨h, -⟩
        exact absurd hk h
  · have hk : buf.take 4 ≠ "none".toList := fun h => hn ((keyword_iff_take buf).2 h)
    cases hf : find_policy PAGE_SIZE registry buf with
    | none =>
      refine ⟨(count : Int), device, ?_, ?_, fun _ => rfl⟩
      · rw [store_of_name _ _ _ _ _ _ hn, hf, hs]
      · constructor
        · intro h
          exact absurd h hneg
        · rintro ⟨-, Q, r, hQ, -, -⟩
          cases hQ
    | some Q =>
      have hclos : closable device := hc (Or.inr (by rw [hf]; simp))
      cases hinit : Q.init with
      | none => exact absurd hinit (hi hk Q hf)
      | some r =>
        obtain ⟨device1, h1, -, -⟩ := attach_ok device Q r hclos hinit
        by_cases hr : r = 0
        · refine ⟨(count : Int), device1, ?_, ?_, fun _ => rfl⟩
          · rw [store_of_name _ _ _ _ _ _ hn, hf]
            simp [h1, hr, hs]
          · constructor
            · intro h
              exact absurd h hneg
            · rintro ⟨-, Q1, r1, hQ1, hr1, hne⟩
              cases hQ1
              rw [hinit] at hr1
              cases hr1
              exact absurd hr hne
        · refine ⟨- EIO, device1, ?_, ?_, fun h => absurd rfl h⟩
          · rw [store_of_name _ _ _ _ _ _ hn, hf]
            simp [h1, hr]
          · constructor
            · intro _
              exact ⟨hk, Q, r, rfl, hinit, hr⟩
            · intro _
              rfl

/-- The write of `broken` and a newline on a slot holding `ondemand`. -/
theorem store_result_witness :
    ∃ ret device1,
      pwrscale_policy_store 2147483647 4096 [ondemand, broken] (device_with ondemand)
          "broken\n".toList 7 = Except.ok (ret, device1) ∧
      (ret = - EIO ↔
        (("broken\n".toList).take 4 ≠ "none".toList ∧
          ∃ Q r, find_policy 4096 [ondemand, broken] "broken\n".toList = some Q ∧
            Q.init = some r ∧ r ≠ 0)) ∧
      (ret ≠ - EIO → ret = ((7 : Nat) : Int)) :=
  store_result 2147483647 4096 [ondemand, broken] (device_with ondemand)
    "broken\n".toList 7 (fun _ => by decide)
    (fun _ Q hQ => by
      have hf : find_policy 4096 [ondemand, broken] "broken\n".toList = some broken := by
        decide
      rw [hf] at hQ
      cases hQ
      decide)
    (by decide)

/-! ## Reads of `policy` and `avail_policies` -/

theorem snprintf_fits (buf : List Char) (k n : Nat) (text : List Char)
    (h : k + text.length < n) :
    snprintf buf ((k : Int).toNat) ((n : Int) - (k : Int)) text
      = (buf.take k ++ text, (text.length : Int)) := by
  have h1 : ¬ ((n : Int) - (k : Int) < 0) := by omega
  have h2 : ¬ ((n : Int) - (k : Int) = 0) := by omega
  have h3 : text.length ≤ ((n : Int) - (k : Int)).toNat - 1 := by omega
  unfold snprintf
  rw [if_neg h1, if_neg h2, List.take_of_length_le h3]
  simp

theorem policy_show_eq (n : Nat) (device : kgsl_device) (buf : List Char)
    (hfit : (policy_text device.pwrscale.policy).length < n) :
    (pwrscale_policy_show n device buf).1
        = ((policy_text device.pwrscale.policy).length : Int) ∧
      (pwrscale_policy_show n device buf).2.1 = policy_text device.pwrscale.policy ∧
      (pwrscale_policy_show n device buf).2.2.pwrscale = device.pwrscale := by
  have key : ∀ text : List Char, text.length < n →
      snprintf buf 0 (n : Int) text = (text, (text.length : Int)) := by
    intro text ht
    have := snprintf_fits buf 0 n text (by omega)
    simpa using this
  cases h : device.pwrscale.policy with
  | none =>
    rw [h] at hfit
    have hk := key "none\n".toList (by simpa [policy_text] using hfit)
    unfold pwrscale_policy_show
    simp only [record, h]
    rw [hk]
    simp [policy_text]
  | some p =>
    rw [h] at hfit
    have hk := key (cstr p.name ++ "\n".toList) (by simpa [policy_text] using hfit)
    unfold pwrscale_policy_show
    simp only [record, h]
    rw [hk]
    simp [policy_text]

/-- C8, as stated, fails: a read of `policy` on an empty slot produces `none`
followed by a newline, not the literal `none`; and with `perf` registered
before `performance`, a write of the registered name `performance`, whose
`init` succeeds, is followed by a read that shows `perf`, not that name. -/
theorem policy_show_not_bare_name :
    (pwrscale_policy_show 4096 idle_device []).2.1 = "none\n".toList ∧
    (pwrscale_policy_show 4096 idle_device []).2.1 ≠ "none".toList ∧
    (pwrscale_policy_show 4096 (device_with ondemand) []).2.1 ≠ ondemand.name ∧
    performance ∈ [perf, performance] ∧ performance.init = some 0 ∧
    ∃ device1, pwrscale_policy_store 2147483647 4096 [perf, performance] idle_device
        performance.name 11 = Except.ok (11, device1) ∧
      (pwrscale_policy_show 4096 device1 []).2.1 = "perf\n".toList ∧
      (pwrscale_policy_show 4096 device1 []).2.1 ≠ performance.name := by
  refine ⟨by decide, by decide, by decide, by decide, rfl, ?_⟩
  have h : pwrscale_policy_store 2147483647 4096 [perf, performance] idle_device performance.name 11
      = Except.ok (11, kgsl_device.mk (kgsl_pwrscale.mk (some perf))
          [Event.load_policy, Event.mutex_lock, Event.store_policy (some perf),
            Event.load_policy, Event.call Hook.init perf, Event.mutex_unlock]) := by
    decide
  exact ⟨_, h, by decide, by decide⟩

/-- C8, amended: for every slot state whose line fits in a page, the text
produced by `pwrscale_policy_show` is the active policy's name followed by a
newline when the slot is occupied and `none` followed by a newline when it is
empty, the return value is its length, and the slot is unchanged; after a
write that does not begin with `none`, that the lookup resolves to `Q`, and
whose `Q.init` returns 0, the next read shows the name of `Q` and a newline;
after a write that begins with `none` the next read shows `none` and a
newline.  (Both writes on a slot that is empty or holds a policy implementing
`close`.) -/
theorem policy_show_text (SSIZE_MAX PAGE_SIZE : Nat) (device : kgsl_device) (buf : List Char) :
    ((policy_text device.pwrscale.policy).length < PAGE_SIZE →
      (pwrscale_policy_show PAGE_SIZE device buf).1
          = ((policy_text device.pwrscale.policy).length : Int) ∧
        (pwrscale_policy_show PAGE_SIZE device buf).2.1
          = policy_text device.pwrscale.policy ∧
        (pwrscale_policy_show PAGE_SIZE device buf).2.2.pwrscale = device.pwrscale) ∧
    (∀ (registry : List kgsl_pwrscale_policy) (written : List Char) (count : Nat)
        (Q : kgsl_pwrscale_policy),
      closable device → written.take 4 ≠ "none".toList →
      find_policy PAGE_SIZE registry written = some Q → Q.init = some 0 →
      (cstr Q.name ++ "\n".toList).length < PAGE_SIZE →
      ∃ device1, pwrscale_policy_store SSIZE_MAX PAGE_SIZE registry device written count
          = Except.ok (to_ssize_t SSIZE_MAX count, device1) ∧
        (pwrscale_policy_show PAGE_SIZE device1 buf).2.1
          = cstr Q.name ++ "\n".toList) ∧
    (∀ (registry : List kgsl_pwrscale_policy) (written : List Char) (count : Nat),
      closable device → written.take 4 = "none".toList → 5 < PAGE_SIZE →
      ∃ device1, pwrscale_policy_store SSIZE_MAX PAGE_SIZE registry device written count
          = Except.ok (to_ssize_t SSIZE_MAX count, device1) ∧
        (pwrscale_policy_show PAGE_SIZE device1 buf).2.1 = "none\n".toList) := by
  refine ⟨policy_show_eq PAGE_SIZE device buf, ?_, ?_⟩
  · intro registry written count Q hc hk hf hQ hfit
    have hn : ¬ strncmp "none".toList written 4 = 0 :=
      fun h => hk ((keyword_iff_take written).1 h)
    obtain ⟨device1, h1, h2, -⟩ := attach_ok device Q 0 hc hQ
    have h2 : device1.pwrscale.policy = some Q := by simpa using h2
    refine ⟨device1, ?_, ?_⟩
    · rw [store_of_name _ _ _ _ _ _ hn, hf]
      simp [h1]
    · have := policy_show_eq PAGE_SIZE device1 buf (by rw [h2]; exact hfit)
      rw [this.2.1, h2]
      rfl
  · intro registry written count hc hk hfit
    have hn : strncmp "none".toList written 4 = 0 := (keyword_iff_take written).2 hk
    obtain ⟨device1, h1, h2, -⟩ := detach_ok device hc
    refine ⟨device1, ?_, ?_⟩
    · rw [store_of_keyword _ _ _ _ _ _ hn, h1]
    · have := policy_show_eq PAGE_SIZE device1 buf (by rw [h2]; exact hfit)
      rw [this.2.1, h2]
      rfl

/-- Reads on a slot holding `performance`, after a write of `ondemand`, and
after a write of `none`. -/
theorem policy_show_text_witness :
    ((pwrscale_policy_show 4096 (device_with performance) []).1 = ((12 : Nat) : Int) ∧
        (pwrscale_policy_show 4096 (device_with performance) []).2.1
          = policy_text (some performance) ∧
        (pwrscale_policy_show 4096 (device_with performance) []).2.2.pwrscale
          = (device_with performance).pwrscale) ∧
    (∃ device1, pwrscale_policy_store 2147483647 4096 [ondemand, performance]
          (device_with performance) "ondemand\n".toList 9
          = Except.ok (to_ssize_t 2147483647 9, device1) ∧
        (pwrscale_policy_show 4096 device1 []).2.1
          = cstr ondemand.name ++ "\n".toList) ∧
    (∃ device1, pwrscale_policy_store 2147483647 4096 [ondemand, performance]
          (device_with performance) "none\n".toList 5
          = Except.ok (to_ssize_t 2147483647 5, device1) ∧
        (pwrscale_policy_show 4096 device1 []).2.1 = "none\n".toList) :=
  ⟨(policy_show_text 2147483647 4096 (device_with performance) []).1 (by decide),
   (policy_show_text 2147483647 4096 (device_with performance) []).2.1 [ondemand, performance]
      "ondemand\n".toList 9 ondemand (by decide) (by decide) (by decide) rfl (by decide),
   (policy_show_text 2147483647 4096 (device_with performance) []).2.2 [ondemand, performance]
      "none\n".toList 5 (by decide) (by decide) (by decide)⟩

theorem avail_policies_loop_fits (n : Nat) (ps : List kgsl_pwrscale_policy)
    (buf : List Char) (k : Nat) (h : k + (avail_text ps).length < n) :
    (snprintf (avail_policies_loop n ps buf (k : Int)).1
        (avail_policies_loop n ps buf (k : Int)).2.toNat
        ((n : Int) - (avail_policies_loop n ps buf (k : Int)).2) "none\n".toList).1
      = buf.take k ++ avail_text ps ∧
    (avail_policies_loop n ps buf (k : Int)).2
      + (snprintf (avail_policies_loop n ps buf (k : Int)).1
        (avail_policies_loop n ps buf (k : Int)).2.toNat
        ((n : Int) - (avail_policies_loop n ps buf (k : Int)).2) "none\n".toList).2
      = ((k + (avail_text ps).length : Nat) : Int) := by
  induction ps generalizing buf k with
  | nil =>
    have hk := snprintf_fits buf k n "none\n".toList (by simpa [avail_text] using h)
    simp only [avail_policies_loop]
    rw [hk]
    simp [avail_text]
  | cons p ps ih =>
    have hlen : (avail_text (p :: ps)).length
        = (cstr p.name ++ " ".toList).length + (avail_text ps).length := by
      simp [avail_text]
      omega
    have hk := snprintf_fits buf k n (cstr p.name ++ " ".toList) (by omega)
    have hcast : (k : Int) + ((cstr p.name ++ " ".toList).length : Int)
        = ((k + (cstr p.name ++ " ".toList).length : Nat) : Int) := by push_cast; rfl
    have ih1 := ih (buf.take k ++ (cstr p.name ++ " ".toList))
      (k + (cstr p.name ++ " ".toList).length) (by omega)
    have htake : (buf.take k ++ (cstr p.name ++ " ".toList)).take
        (k + (cstr p.name ++ " ".toList).length)
        = buf.take k ++ (cstr p.name ++ " ".toList) := by
      apply List.take_of_length_le
      have := List.length_take_le k buf
      simp only [List.length_append] at *
      omega
    rw [htake] at ih1
    simp only [avail_policies_loop]
    rw [hk, hcast]
    refine ⟨?_, ?_⟩
    · rw [ih1.1]
      simp [avail_text]
    · rw [ih1.2, hlen]
      push_cast
      omega

/-- C9, as stated, fails: for the registry `ondemand`, `performance` the text
produced is `ondemand performance none` followed by a newline, which is not
the text `ondemand performance none`. -/
theorem avail_policies_show_has_newline :
    (pwrscale_avail_policies_show 4096 [ondemand, performance] idle_device []).2.1
      = "ondemand performance none\n".toList ∧
    (pwrscale_avail_policies_show 4096 [ondemand, performance] idle_device []).2.1
      ≠ "ondemand performance none".toList := by
  constructor <;> decide

/-- C9, amended: for every registry whose output fits in one page, the text
produced by `pwrscale_avail_policies_show` is the names of all registered
policies, each exactly once and in registration order, each followed by a
single space, followed by the literal `none` and a newline; the return value
is the length of that text, and neither depends on the slot state, which is
left as it was.  For the registry `ondemand`, `performance` that text is
`ondemand performance none` and a newline. -/
theorem avail_policies_show_text (PAGE_SIZE : Nat)
    (registry : List kgsl_pwrscale_policy) (device : kgsl_device) (buf : List Char)
    (hfit : (avail_text registry).length < PAGE_SIZE) :
    pwrscale_avail_policies_show PAGE_SIZE registry device buf
      = (((avail_text registry).length : Int), avail_text registry, device) ∧
    avail_text [ondemand, performance] = "ondemand performance none\n".toList := by
  have h := avail_policies_loop_fits PAGE_SIZE registry buf 0 (by omega)
  refine ⟨?_, by decide⟩
  unfold pwrscale_avail_policies_show
  simp only [Nat.cast_zero, List.take_zero, List.nil_append, Nat.zero_add] at h
  simp only [h.1, h.2]

/-- The read of `avail_policies` with `ondemand` and `performance` registered. -/
theorem avail_policies_show_text_witness :
    pwrscale_avail_policies_show 4096 [ondemand, performance] (device_with ondemand) []
      = (((avail_text [ondemand, performance]).length : Int),
          avail_text [ondemand, performance], device_with ondemand) ∧
    avail_text [ondemand, performance] = "ondemand performance none\n".toList :=
  avail_policies_show_text 4096 [ondemand, performance] (device_with ondemand) []
    (by decide)

/-! ## Event dispatch -/

/-- C10: each of `kgsl_pwrscale_sleep`, `kgsl_pwrscale_wake`,
`kgsl_pwrscale_busy` and `kgsl_pwrscale_idle` calls the matching hook of the
active policy exactly once if and only if the slot is occupied and that hook
is present, calls nothing otherwise, never calls another hook, and leaves the
slot as it was. -/
theorem dispatch_matching_hook (device : kgsl_device) :
    ((kgsl_pwrscale_sleep device).pwrscale = device.pwrscale ∧
      hook_calls (kgsl_pwrscale_sleep device).log = hook_calls device.log ++
        dispatch_calls Hook.sleep kgsl_pwrscale_policy.sleep device.pwrscale.policy) ∧
    ((kgsl_pwrscale_wake device).pwrscale = device.pwrscale ∧
      hook_calls (kgsl_pwrscale_wake device).log = hook_calls device.log ++
        dispatch_calls Hook.wake kgsl_pwrscale_policy.wake device.pwrscale.policy) ∧
    ((kgsl_pwrscale_busy device).pwrscale = device.pwrscale ∧
      hook_calls (kgsl_pwrscale_busy device).log = hook_calls device.log ++
        dispatch_calls Hook.busy kgsl_pwrscale_policy.busy device.pwrscale.policy) ∧
    ((kgsl_pwrscale_idle device).pwrscale = device.pwrscale ∧
      hook_calls (kgsl_pwrscale_idle device).log = hook_calls device.log ++
        dispatch_calls Hook.idle kgsl_pwrscale_policy.idle device.pwrscale.policy) := by
  refine ⟨?_, ?_, ?_, ?_⟩
  · cases h : device.pwrscale.policy with
    | none =>
      simp [kgsl_pwrscale_sleep, record, h, hook_calls, dispatch_calls, Event.hook_call]
    | some p =>
      cases hp : p.sleep <;>
        simp [kgsl_pwrscale_sleep, record, h, hp, hook_calls, dispatch_calls,
          Event.hook_call]
  · cases h : device.pwrscale.policy with
    | none =>
      simp [kgsl_pwrscale_wake, record, h, hook_calls, dispatch_calls, Event.hook_call]
    | some p =>
      cases hp : p.wake <;>
        simp [kgsl_pwrscale_wake, record, h, hp, hook_calls, dispatch_calls,
          Event.hook_call]
  · cases h : device.pwrscale.policy with
    | none =>
      simp [kgsl_pwrscale_busy, record, h, hook_calls, dispatch_calls, Event.hook_call]
    | some p =>
      cases hp : p.busy <;>
        simp [kgsl_pwrscale_busy, record, h, hp, hook_calls, dispatch_calls,
          Event.hook_call]
  · cases h : device.pwrscale.policy with
    | none =>
      simp [kgsl_pwrscale_idle, record, h, hook_calls, dispatch_calls, Event.hook_call]
    | some p =>
      cases hp : p.idle <;>
        simp [kgsl_pwrscale_idle, record, h, hp, hook_calls, dispatch_calls,
          Event.hook_call]

/-! ## Logs of the controller -/

theorem detach_log (device device1 : kgsl_device)
    (h : kgsl_pwrscale_detach_policy device = Except.ok device1) :
    closable device ∧ device1.pwrscale.policy = none ∧
      device1.log = device.log ++ detach_trace device.pwrscale.policy := by
  cases hp : device.pwrscale.policy with
  | none =>
    rw [detach_empty device hp] at h
    cases h
    refine ⟨?_, rfl, rfl⟩
    intro P hP
    rw [hp] at hP
    cases hP
  | some P =>
    cases hcl : P.close with
    | none =>
      rw [detach_null_close device P hp hcl] at h
      cases h
    | some u =>
      rw [detach_occupied device P hp hcl] at h
      cases h
      refine ⟨?_, rfl, rfl⟩
      intro P1 hP1
      rw [hp] at hP1
      cases hP1
      exact hcl

theorem attach_log (device device1 : kgsl_device) (Q : kgsl_pwrscale_policy) (ret : Int)
    (h : kgsl_pwrscale_attach_policy device Q = Except.ok (ret, device1)) :
    closable device ∧ Q.init = some ret ∧
      device1.pwrscale.policy = (if ret ≠ 0 then none else some Q) ∧
      device1.log
        = device.log ++ Event.load_policy :: attach_trace device.pwrscale.policy Q ret := by
  have hc : closable device := by
    intro P hP
    cases hcl : P.close with
    | some u => rfl
    | none =>
      have hd := detach_null_close (record device Event.load_policy) P
        (by simpa [record] using hP) hcl
      simp only [record] at hd
      simp [kgsl_pwrscale_attach_policy, record, hP, hd] at h
  cases hi : Q.init with
  | none =>
    obtain ⟨d, hd, -, -⟩ := attach_null_init device Q hc hi
    rw [hd] at h
    cases h
  | some r =>
    cases hp : device.pwrscale.policy with
    | none =>
      by_cases hr : r = 0 <;>
        simp [kgsl_pwrscale_attach_policy, record, set_policy, hp, hi, hr] at h <;>
        obtain ⟨h1, h2⟩ := h <;> subst h1 <;> subst h2 <;>
        simp [hc, attach_trace, hr]
    | some P =>
      have hd := detach_occupied (record device Event.load_policy) P
        (by simpa [record] using hp) (hc P hp)
      simp only [record] at hd
      by_cases hr : r = 0 <;>
        simp [kgsl_pwrscale_attach_policy, record, set_policy, hp, hi, hr, hd] at h <;>
        obtain ⟨h1, h2⟩ := h <;> subst h1 <;> subst h2 <;>
        simp [hc, attach_trace, detach_trace, hr]

/-! ## Teardown -/

/-- C11, as stated, fails: with `ondemand` attached when teardown begins,
`kgsl_pwrscale_close` leaves `ondemand` in the slot and calls no hook. -/
theorem close_leaves_policy_attached :
    (device_with ondemand).pwrscale.policy = some ondemand ∧
    (kgsl_pwrscale_close (device_with ondemand)).pwrscale.policy = some ondemand ∧
    (kgsl_pwrscale_close (device_with ondemand)).pwrscale.policy ≠ none ∧
    hook_calls (kgsl_pwrscale_close (device_with ondemand)).log = [] := by
  decide

/-- C11, amended: `kgsl_pwrscale_close` does not detach: for every slot state
it leaves the slot as it was and calls no hook, so the slot is empty after
teardown exactly when it was empty before; a policy `P` attached before
teardown is detached by a call of `kgsl_pwrscale_detach_policy` first, after
which the slot is empty and `P.close` has been called exactly once (for `P`
implementing `close`). -/
theorem close_keeps_slot (device : kgsl_device) :
    (kgsl_pwrscale_close device).pwrscale = device.pwrscale ∧
    hook_calls (kgsl_pwrscale_close device).log = hook_calls device.log ∧
    ((kgsl_pwrscale_close device).pwrscale.policy = none ↔
      device.pwrscale.policy = none) ∧
    (closable device →
      ∃ device1, kgsl_pwrscale_detach_policy device = Except.ok device1 ∧
        (kgsl_pwrscale_close device1).pwrscale.policy = none ∧
        hook_calls (kgsl_pwrscale_close device1).log = hook_calls device.log ++
          (match device.pwrscale.policy with
           | none => []
           | some P => [(Hook.close, P)])) := by
  have h1 : (kgsl_pwrscale_close device).pwrscale = device.pwrscale := rfl
  have h2 : ∀ d : kgsl_device,
      hook_calls (kgsl_pwrscale_close d).log = hook_calls d.log := by
    intro d
    simp [kgsl_pwrscale_close, record, hook_calls, Event.hook_call]
  refine ⟨h1, h2 device, by rw [h1], ?_⟩
  intro hc
  obtain ⟨device1, hd, hp, hcalls⟩ := detach_ok device hc
  refine ⟨device1, hd, hp, ?_⟩
  rw [h2 device1, hcalls]
  cases device.pwrscale.policy <;> rfl

/-- Teardown of a device holding `performance`, after a detach. -/
theorem close_keeps_slot_witness :
    ∃ device1, kgsl_pwrscale_detach_policy (device_with performance)
        = Except.ok device1 ∧
      (kgsl_pwrscale_close device1).pwrscale.policy = none ∧
      hook_calls (kgsl_pwrscale_close device1).log
        = hook_calls (device_with performance).log ++
          (match (device_with performance).pwrscale.policy with
           | none => []
           | some P => [(Hook.close, P)]) :=
  (close_keeps_slot (device_with performance)).2.2.2 (by decide)

/-! ## Absent hooks -/

/-- C12, as stated, fails: attaching a policy whose `init` pointer is NULL and
detaching a policy whose `close` pointer is NULL both reach the call of a NULL
pointer. -/
theorem absent_init_or_close_is_called :
    uninitialised.init = none ∧
    kgsl_pwrscale_attach_policy idle_device uninitialised
      = Except.error (Fault.null_call Hook.init
          (kgsl_device.mk (kgsl_pwrscale.mk (some uninitialised))
          [Event.load_policy, Event.mutex_lock, Event.store_policy (some uninitialised),
            Event.load_policy])) ∧
    unclosable.close = none ∧
    kgsl_pwrscale_detach_policy (device_with unclosable)
      = Except.error (Fault.null_call Hook.close
          (kgsl_device.mk (kgsl_pwrscale.mk (some unclosable))
          [Event.mutex_lock, Event.load_policy, Event.load_policy])) := by
  decide

/-- C12, amended: `init` and `close` are not safe to omit, the other four
hooks are: for every policy descriptor, whichever of `sleep`, `wake`, `busy`
and `idle` it implements, `kgsl_pwrscale_detach_policy` completes exactly when
the policy in the slot, if any, implements `close`, and
`kgsl_pwrscale_attach_policy` completes exactly when, in addition, the policy
being attached implements `init`; otherwise they call a NULL pointer. -/
theorem init_and_close_required (device : kgsl_device) (Q : kgsl_pwrscale_policy) :
    ((∃ device1, kgsl_pwrscale_detach_policy device = Except.ok device1) ↔
      closable device) ∧
    ((∃ ret device1, kgsl_pwrscale_attach_policy device Q = Except.ok (ret, device1)) ↔
      (closable device ∧ Q.init ≠ none)) ∧
    ((∃ h device1,
        kgsl_pwrscale_detach_policy device = Except.error (Fault.null_call h device1)) ↔
      ¬ closable device) ∧
    ((∃ h device1,
        kgsl_pwrscale_attach_policy device Q = Except.error (Fault.null_call h device1)) ↔
      ¬ (closable device ∧ Q.init ≠ none)) := by
  have hdet : (∃ device1, kgsl_pwrscale_detach_policy device = Except.ok device1) ↔
      closable device := by
    constructor
    · rintro ⟨device1, h⟩
      exact (detach_log device device1 h).1
    · intro hc
      obtain ⟨device1, h, -, -⟩ := detach_ok device hc
      exact ⟨device1, h⟩
  have hatt : (∃ ret device1,
      kgsl_pwrscale_attach_policy device Q = Except.ok (ret, device1)) ↔
      (closable device ∧ Q.init ≠ none) := by
    constructor
    · rintro ⟨ret, device1, h⟩
      obtain ⟨hc, hi, -, -⟩ := attach_log device device1 Q ret h
      exact ⟨hc, by rw [hi]; simp⟩
    · rintro ⟨hc, hi⟩
      cases hq : Q.init with
      | none => exact absurd hq hi
      | some ret =>
        obtain ⟨device1, h, -, -⟩ := attach_ok device Q ret hc hq
        exact ⟨ret, device1, h⟩
  refine ⟨hdet, hatt, ?_, ?_⟩
  · rw [← hdet]
    cases hr : kgsl_pwrscale_detach_policy device with
    | error f =>
      cases f with
      | null_call h d => simp
    | ok d => simp
  · rw [← hatt]
    cases hr : kgsl_pwrscale_attach_policy device Q with
    | error f =>
      cases f with
      | null_call h d => simp
    | ok rd =>
      obtain ⟨r, d⟩ := rd
      simp

/-! ## Logs of the property surface and of the dispatchers -/

theorem store_cases (SSIZE_MAX PAGE_SIZE : Nat) (registry : List kgsl_pwrscale_policy)
    (device device1 : kgsl_device) (buf : List Char) (count : Nat) (r : Int)
    (h : pwrscale_policy_store SSIZE_MAX PAGE_SIZE registry device buf count
      = Except.ok (r, device1)) :
    (strncmp "none".toList buf 4 = 0 ∧
      kgsl_pwrscale_detach_policy device = Except.ok device1 ∧ r = to_ssize_t SSIZE_MAX count) ∨
    (¬ strncmp "none".toList buf 4 = 0 ∧
      find_policy PAGE_SIZE registry buf = none ∧ device1 = device ∧
      r = to_ssize_t SSIZE_MAX count) ∨
    (¬ strncmp "none".toList buf 4 = 0 ∧
      ∃ Q ret, find_policy PAGE_SIZE registry buf = some Q ∧
        kgsl_pwrscale_attach_policy device Q = Except.ok (ret, device1) ∧
        r = (if ret ≠ 0 then - EIO else to_ssize_t SSIZE_MAX count)) := by
  by_cases hn : strncmp "none".toList buf 4 = 0
  · left
    rw [store_of_keyword _ _ _ _ _ _ hn] at h
    cases hd : kgsl_pwrscale_detach_policy device with
    | error f =>
      rw [hd] at h
      cases h
    | ok d =>
      rw [hd] at h
      cases h
      exact ⟨hn, rfl, rfl⟩
  · right
    rw [store_of_name _ _ _ _ _ _ hn] at h
    cases hf : find_policy PAGE_SIZE registry buf with
    | none =>
      rw [hf] at h
      cases h
      exact Or.inl ⟨hn, rfl, rfl, rfl⟩
    | some Q =>
      rw [hf] at h
      dsimp only at h
      right
      cases ha : kgsl_pwrscale_attach_policy device Q with
      | error f =>
        rw [ha] at h
        cases h
      | ok rd =>
        obtain ⟨ret, d⟩ := rd
        rw [ha] at h
        by_cases hr : ret = 0
        · simp [hr] at h
          obtain ⟨h1, h2⟩ := h
          refine ⟨hn, Q, ret, rfl, ?_, ?_⟩
          · rw [← h2]
            exact ha
          · simp [hr, h1]
        · simp [hr] at h
          obtain ⟨h1, h2⟩ := h
          refine ⟨hn, Q, ret, rfl, ?_, ?_⟩
          · rw [← h2]
            exact ha
          · simp [hr, h1]

theorem show_log (PAGE_SIZE : Nat) (device : kgsl_device) (buf : List Char) :
    (pwrscale_policy_show PAGE_SIZE device buf).2.2.log
      = device.log ++ show_trace device.pwrscale.policy ∧
    (pwrscale_policy_show PAGE_SIZE device buf).2.2.pwrscale = device.pwrscale := by
  cases h : device.pwrscale.policy <;>
    simp [pwrscale_policy_show, record, h, show_trace]

theorem sleep_log (device : kgsl_device) :
    (kgsl_pwrscale_sleep device).log = device.log ++
      dispatch_trace Hook.sleep kgsl_pwrscale_policy.sleep device.pwrscale.policy ∧
    (kgsl_pwrscale_sleep device).pwrscale = device.pwrscale := by
  cases h : device.pwrscale.policy with
  | none => simp [kgsl_pwrscale_sleep, record, h, dispatch_trace]
  | some p => cases hp : p.sleep <;> simp [kgsl_pwrscale_sleep, record, h, hp, dispatch_trace]

theorem wake_log (device : kgsl_device) :
    (kgsl_pwrscale_wake device).log = device.log ++
      dispatch_trace Hook.wake kgsl_pwrscale_policy.wake device.pwrscale.policy ∧
    (kgsl_pwrscale_wake device).pwrscale = device.pwrscale := by
  cases h : device.pwrscale.policy with
  | none => simp [kgsl_pwrscale_wake, record, h, dispatch_trace]
  | some p => cases hp : p.wake <;> simp [kgsl_pwrscale_wake, record, h, hp, dispatch_trace]

theorem busy_log (device : kgsl_device) :
    (kgsl_pwrscale_busy device).log = device.log ++
      dispatch_trace Hook.busy kgsl_pwrscale_policy.busy device.pwrscale.policy ∧
    (kgsl_pwrscale_busy device).pwrscale = device.pwrscale := by
  cases h : device.pwrscale.policy with
  | none => simp [kgsl_pwrscale_busy, record, h, dispatch_trace]
  | some p => cases hp : p.busy <;> simp [kgsl_pwrscale_busy, record, h, hp, dispatch_trace]

theorem idle_log (device : kgsl_device) :
    (kgsl_pwrscale_idle device).log = device.log ++
      dispatch_trace Hook.idle kgsl_pwrscale_policy.idle device.pwrscale.policy ∧
    (kgsl_pwrscale_idle device).pwrscale = device.pwrscale := by
  cases h : device.pwrscale.policy with
  | none => simp [kgsl_pwrscale_idle, record, h, dispatch_trace]
  | some p => cases hp : p.idle <;> simp [kgsl_pwrscale_idle, record, h, hp, dispatch_trace]

theorem detach_trace_locked (slot : Option kgsl_pwrscale_policy) :
    slot_accesses_locked false (detach_trace slot) = true ∧
    slot_writes_locked false (detach_trace slot) = true ∧
    lock_run false (detach_trace slot) = some false := by
  cases slot <;> simp [detach_trace, slot_accesses_locked, slot_writes_locked, lock_run]

theorem attach_trace_locked (slot : Option kgsl_pwrscale_policy)
    (Q : kgsl_pwrscale_policy) (ret : Int) :
    slot_accesses_locked false (attach_trace slot Q ret) = true ∧
    slot_writes_locked false (Event.load_policy :: attach_trace slot Q ret) = true ∧
    lock_run false (Event.load_policy :: attach_trace slot Q ret) = some false := by
  cases slot <;> by_cases hr : ret = 0 <;>
    simp [attach_trace, detach_trace, slot_accesses_locked, slot_writes_locked, lock_run, hr]

theorem dispatch_trace_unlocked (h : Hook) (get : kgsl_pwrscale_policy → Option Unit)
    (slot : Option kgsl_pwrscale_policy) :
    slot_writes_locked false (dispatch_trace h get slot) = true ∧
    Event.mutex_lock ∉ dispatch_trace h get slot ∧
    slot_accesses_locked false (dispatch_trace h get slot) = false := by
  cases slot with
  | none => simp [dispatch_trace, slot_writes_locked, slot_accesses_locked]
  | some p =>
    cases hp : get p <;>
      simp [dispatch_trace, hp, slot_writes_locked, slot_accesses_locked]

/-! ## Lock discipline -/

/-- C13, as stated, fails: a read of `policy` on the empty device reads the
slot once and never takes the mutex; `kgsl_pwrscale_busy` on a device holding
`performance` reads the slot three times and calls `busy` without the mutex;
and `kgsl_pwrscale_attach_policy` reads the slot once before it locks. -/
theorem slot_read_outside_lock :
    (pwrscale_policy_show 4096 idle_device []).2.2.log = [Event.load_policy] ∧
    slot_accesses_locked false (pwrscale_policy_show 4096 idle_device []).2.2.log
      = false ∧
    (kgsl_pwrscale_busy (device_with performance)).log
      = [Event.load_policy, Event.load_policy, Event.load_policy,
          Event.call Hook.busy performance] ∧
    slot_accesses_locked false (kgsl_pwrscale_busy (device_with performance)).log
      = false ∧
    (∃ device1, kgsl_pwrscale_attach_policy idle_device ondemand
        = Except.ok (0, device1) ∧
      device1.log = [Event.load_policy, Event.mutex_lock,
        Event.store_policy (some ondemand), Event.load_policy,
        Event.call Hook.init ondemand, Event.mutex_unlock] ∧
      slot_accesses_locked false device1.log = false) := by
  refine ⟨by decide, by decide, by decide, by decide, ?_⟩
  have h : kgsl_pwrscale_attach_policy idle_device ondemand
      = Except.ok (0, kgsl_device.mk (kgsl_pwrscale.mk (some ondemand))
          [Event.load_policy, Event.mutex_lock, Event.store_policy (some ondemand),
            Event.load_policy, Event.call Hook.init ondemand, Event.mutex_unlock]) := by
    decide
  exact ⟨_, h, rfl, by decide⟩

/-- C13, amended: in every execution that returns, every write of the slot's
active-policy field made by `kgsl_pwrscale_attach_policy`,
`kgsl_pwrscale_detach_policy` and `pwrscale_policy_store` happens while the
device's mutex is held, as does every read made by detach and every read made
by attach after its entry test `policy != NULL`, which reads the slot before
the mutex is taken; `pwrscale_policy_show` and the four notify operations
never write the slot and never take the mutex. -/
theorem slot_lock_discipline (SSIZE_MAX PAGE_SIZE : Nat) (registry : List kgsl_pwrscale_policy)
    (device : kgsl_device) :
    (∀ device1, kgsl_pwrscale_detach_policy device = Except.ok device1 →
      ∃ tr, device1.log = device.log ++ tr ∧ slot_accesses_locked false tr = true) ∧
    (∀ Q ret device1, kgsl_pwrscale_attach_policy device Q = Except.ok (ret, device1) →
      ∃ tr, device1.log = device.log ++ Event.load_policy :: tr ∧
        slot_accesses_locked false tr = true) ∧
    (∀ buf count r device1,
      pwrscale_policy_store SSIZE_MAX PAGE_SIZE registry device buf count
        = Except.ok (r, device1) →
      ∃ tr, device1.log = device.log ++ tr ∧ slot_writes_locked false tr = true) ∧
    (∀ buf, ∃ tr, (pwrscale_policy_show PAGE_SIZE device buf).2.2.log = device.log ++ tr ∧
      slot_writes_locked false tr = true ∧ Event.mutex_lock ∉ tr) ∧
    (∀ f ∈ [kgsl_pwrscale_sleep, kgsl_pwrscale_wake, kgsl_pwrscale_busy,
        kgsl_pwrscale_idle],
      ∃ tr, (f device).log = device.log ++ tr ∧
        slot_writes_locked false tr = true ∧ Event.mutex_lock ∉ tr) := by
  refine ⟨?_, ?_, ?_, ?_, ?_⟩
  · intro device1 h
    exact ⟨_, (detach_log device device1 h).2.2, (detach_trace_locked _).1⟩
  · intro Q ret device1 h
    exact ⟨_, (attach_log device device1 Q ret h).2.2.2, (attach_trace_locked _ Q ret).1⟩
  · intro buf count r device1 h
    rcases store_cases SSIZE_MAX PAGE_SIZE registry device device1 buf count r h with
      ⟨-, hd, -⟩ | ⟨-, -, hd, -⟩ | ⟨-, Q, ret, -, ha, -⟩
    · exact ⟨_, (detach_log device device1 hd).2.2, (detach_trace_locked _).2.1⟩
    · exact ⟨[], by rw [hd]; simp, rfl⟩
    · exact ⟨_, (attach_log device device1 Q ret ha).2.2.2,
        (attach_trace_locked _ Q ret).2.1⟩
  · intro buf
    refine ⟨_, (show_log PAGE_SIZE device buf).1, ?_, ?_⟩ <;>
      cases device.pwrscale.policy <;> simp [show_trace, slot_writes_locked]
  · intro f hf
    simp only [List.mem_cons, List.mem_singleton, List.not_mem_nil, or_false] at hf
    rcases hf with rfl | rfl | rfl | rfl
    · exact ⟨_, (sleep_log device).1, (dispatch_trace_unlocked _ _ _).1,
        (dispatch_trace_unlocked _ _ _).2.1⟩
    · exact ⟨_, (wake_log device).1, (dispatch_trace_unlocked _ _ _).1,
        (dispatch_trace_unlocked _ _ _).2.1⟩
    · exact ⟨_, (busy_log device).1, (dispatch_trace_unlocked _ _ _).1,
        (dispatch_trace_unlocked _ _ _).2.1⟩
    · exact ⟨_, (idle_log device).1, (dispatch_trace_unlocked _ _ _).1,
        (dispatch_trace_unlocked _ _ _).2.1⟩

/-- The detach of `ondemand`: every access of the slot is under the mutex. -/
theorem slot_lock_discipline_witness :
    ∃ device1 tr,
      kgsl_pwrscale_detach_policy (device_with ondemand) = Except.ok device1 ∧
      device1.log = (device_with ondemand).log ++ tr ∧
      slot_accesses_locked false tr = true :=
  match detach_ok (device_with ondemand) (by decide) with
  | ⟨device1, h, _, _⟩ =>
    match (slot_lock_discipline 2147483647 4096 [] (device_with ondemand)).1 device1 h with
    | ⟨tr, h1, h2⟩ => ⟨device1, tr, h, h1, h2⟩

/-- C15: in every execution of `kgsl_pwrscale_detach_policy` and
`kgsl_pwrscale_attach_policy` that returns, on the rollback path too, the
mutex is never acquired while held nor released while free, every `init` and
`close` call is made while it is held, and it is free when the operation
returns; and the operations do return when the policy in the slot, if any,
implements `close` and the policy being attached implements `init`. -/
theorem lock_held_across_hooks (device : kgsl_device) (Q : kgsl_pwrscale_policy) :
    (∀ device1, kgsl_pwrscale_detach_policy device = Except.ok device1 →
      ∃ tr, device1.log = device.log ++ tr ∧ lock_run false tr = some false) ∧
    (∀ ret device1, kgsl_pwrscale_attach_policy device Q = Except.ok (ret, device1) →
      ∃ tr, device1.log = device.log ++ tr ∧ lock_run false tr = some false) ∧
    (closable device →
      ∃ device1, kgsl_pwrscale_detach_policy device = Except.ok device1) ∧
    (closable device → Q.init ≠ none →
      ∃ ret device1, kgsl_pwrscale_attach_policy device Q = Except.ok (ret, device1)) := by
  refine ⟨?_, ?_, ?_, ?_⟩
  · intro device1 h
    exact ⟨_, (detach_log device device1 h).2.2, (detach_trace_locked _).2.2⟩
  · intro ret device1 h
    exact ⟨_, (attach_log device device1 Q ret h).2.2.2,
      (attach_trace_locked _ Q ret).2.2⟩
  · intro hc
    obtain ⟨device1, h, -, -⟩ := detach_ok device hc
    exact ⟨device1, h⟩
  · intro hc hi
    cases hq : Q.init with
    | none => exact absurd hq hi
    | some ret =>
      obtain ⟨device1, h, -, -⟩ := attach_ok device Q ret hc hq
      exact ⟨ret, device1, h⟩

/-- The rollback path: `broken` attached on a slot holding `performance`. -/
theorem lock_held_across_hooks_witness :
    ∃ ret device1 tr,
      kgsl_pwrscale_attach_policy (device_with performance) broken
        = Except.ok (ret, device1) ∧
      device1.log = (device_with performance).log ++ tr ∧
      lock_run false tr = some false :=
  match (lock_held_across_hooks (device_with performance) broken).2.2.2
      (by decide) (by decide) with
  | ⟨ret, device1, h⟩ =>
    match (lock_held_across_hooks (device_with performance) broken).2.1 ret device1 h with
    | ⟨tr, h1, h2⟩ => ⟨ret, device1, tr, h, h1, h2⟩

/-! ## Sequential histories -/

theorem pairing_append (slot : Option kgsl_pwrscale_policy)
    (a b : List (Hook × kgsl_pwrscale_policy)) :
    pairing slot (a ++ b) = (pairing slot a).bind (fun s => pairing s b) := by
  induction a generalizing slot with
  | nil => simp [pairing]
  | cons c cs ih =>
    obtain ⟨h, P⟩ := c
    cases h <;> simp only [List.cons_append, pairing]
    · split
      · exact ih _
      · rfl
    · split
      · exact ih _
      · rfl
    · exact ih _
    · exact ih _
    · exact ih _
    · exact ih _

theorem pairing_open_policy (slot : Option kgsl_pwrscale_policy)
    (calls : List (Hook × kgsl_pwrscale_policy)) (t : Option kgsl_pwrscale_policy)
    (h : pairing slot calls = some t) : open_policy slot calls = t := by
  induction calls generalizing slot with
  | nil =>
    simp only [pairing, Option.some.injEq] at h
    simpa [open_policy] using h
  | cons c cs ih =>
    obtain ⟨k, P⟩ := c
    cases k <;> simp only [pairing, open_policy] at h ⊢
    · split at h
      · exact ih _ h
      · cases h
    · split at h
      · exact ih _ h
      · cases h
    · exact ih _ h
    · exact ih _ h
    · exact ih _ h
    · exact ih _ h

theorem hook_calls_detach_trace (slot : Option kgsl_pwrscale_policy) :
    hook_calls (detach_trace slot) = detach_calls slot := by
  cases slot <;> simp [hook_calls, detach_trace, detach_calls, Event.hook_call]

theorem hook_calls_attach_trace (slot : Option kgsl_pwrscale_policy)
    (Q : kgsl_pwrscale_policy) (ret : Int) :
    hook_calls (Event.load_policy :: attach_trace slot Q ret)
      = detach_calls slot ++ [(Hook.init, Q)] := by
  cases slot <;> by_cases hr : ret = 0 <;>
    simp [hook_calls, attach_trace, detach_trace, detach_calls, Event.hook_call, hr]

theorem pairing_detach (slot : Option kgsl_pwrscale_policy) :
    pairing slot (detach_calls slot) = some none := by
  cases slot <;> simp [pairing, detach_calls]

theorem pairing_attach (slot : Option kgsl_pwrscale_policy)
    (Q : kgsl_pwrscale_policy) (ret : Int) (hQ : Q.init = some ret) :
    pairing slot (detach_calls slot ++ [(Hook.init, Q)])
      = some (if ret ≠ 0 then none else some Q) := by
  rw [pairing_append, pairing_detach]
  by_cases hr : ret = 0
  · subst hr
    simp [pairing, hQ]
  · simp [pairing, hQ, hr]

theorem pairing_dispatch (h : Hook) (get : kgsl_pwrscale_policy → Option Unit)
    (slot : Option kgsl_pwrscale_policy) (hi : h ≠ Hook.init) (hc : h ≠ Hook.close) :
    pairing slot (hook_calls (dispatch_trace h get slot)) = some slot := by
  cases slot with
  | none => simp [dispatch_trace, hook_calls, Event.hook_call, pairing]
  | some p =>
    cases hp : get p with
    | none => simp [dispatch_trace, hp, hook_calls, Event.hook_call, pairing]
    | some u =>
      cases h <;>
        simp [dispatch_trace, hp, hook_calls, Event.hook_call, pairing] at hi hc ⊢

/-- The effect of one operation that returns: the hook calls it adds are
allowed by the pairing from the slot before, and leave the slot after open. -/
theorem step_pairing (SSIZE_MAX PAGE_SIZE : Nat) (registry : List kgsl_pwrscale_policy)
    (device device1 : kgsl_device) (op : Op)
    (h : step SSIZE_MAX PAGE_SIZE registry device op = Except.ok device1) :
    ∃ calls, hook_calls device1.log = hook_calls device.log ++ calls ∧
      pairing device.pwrscale.policy calls = some device1.pwrscale.policy := by
  have hdet : ∀ d1, kgsl_pwrscale_detach_policy device = Except.ok d1 →
      ∃ calls, hook_calls d1.log = hook_calls device.log ++ calls ∧
        pairing device.pwrscale.policy calls = some d1.pwrscale.policy := by
    intro d1 hd
    obtain ⟨-, hp, hl⟩ := detach_log device d1 hd
    refine ⟨detach_calls device.pwrscale.policy, ?_, ?_⟩
    · rw [hl, hook_calls_append, hook_calls_detach_trace]
    · rw [hp, pairing_detach]
  have hatt : ∀ Q ret d1, kgsl_pwrscale_attach_policy device Q = Except.ok (ret, d1) →
      ∃ calls, hook_calls d1.log = hook_calls device.log ++ calls ∧
        pairing device.pwrscale.policy calls = some d1.pwrscale.policy := by
    intro Q ret d1 ha
    obtain ⟨-, hi, hp, hl⟩ := attach_log device d1 Q ret ha
    refine ⟨detach_calls device.pwrscale.policy ++ [(Hook.init, Q)], ?_, ?_⟩
    · rw [hl, hook_calls_append, hook_calls_attach_trace]
    · rw [hp, pairing_attach _ Q ret hi]
  cases op with
  | attach Q =>
    simp only [step] at h
    cases ha : kgsl_pwrscale_attach_policy device Q with
    | error f =>
      rw [ha] at h
      cases h
    | ok rd =>
      obtain ⟨ret, d⟩ := rd
      rw [ha] at h
      cases h
      exact hatt Q ret _ ha
  | detach => exact hdet device1 h
  | write buf count =>
    simp only [step] at h
    cases hs : pwrscale_policy_store SSIZE_MAX PAGE_SIZE registry device buf count with
    | error f =>
      rw [hs] at h
      cases h
    | ok rd =>
      obtain ⟨r, d⟩ := rd
      rw [hs] at h
      cases h
      rcases store_cases SSIZE_MAX PAGE_SIZE registry device _ buf count r hs with
        ⟨-, hd, -⟩ | ⟨-, -, hd, -⟩ | ⟨-, Q, ret, -, ha, -⟩
      · exact hdet _ hd
      · exact ⟨[], by rw [hd]; simp, by rw [hd]; rfl⟩
      · exact hatt Q ret _ ha
  | sleep =>
    simp only [step, Except.ok.injEq] at h
    subst h
    refine ⟨hook_calls (dispatch_trace Hook.sleep kgsl_pwrscale_policy.sleep
      device.pwrscale.policy), ?_, ?_⟩
    · rw [(sleep_log device).1, hook_calls_append]
    · rw [(sleep_log device).2]
      exact pairing_dispatch _ _ _ (by decide) (by decide)
  | wake =>
    simp only [step, Except.ok.injEq] at h
    subst h
    refine ⟨hook_calls (dispatch_trace Hook.wake kgsl_pwrscale_policy.wake
      device.pwrscale.policy), ?_, ?_⟩
    · rw [(wake_log device).1, hook_calls_append]
    · rw [(wake_log device).2]
      exact pairing_dispatch _ _ _ (by decide) (by decide)
  | busy =>
    simp only [step, Except.ok.injEq] at h
    subst h
    refine ⟨hook_calls (dispatch_trace Hook.busy kgsl_pwrscale_policy.busy
      device.pwrscale.policy), ?_, ?_⟩
    · rw [(busy_log device).1, hook_calls_append]
    · rw [(busy_log device).2]
      exact pairing_dispatch _ _ _ (by decide) (by decide)
  | idle =>
    simp only [step, Except.ok.injEq] at h
    subst h
    refine ⟨hook_calls (dispatch_trace Hook.idle kgsl_pwrscale_policy.idle
      device.pwrscale.policy), ?_, ?_⟩
    · rw [(idle_log device).1, hook_calls_append]
    · rw [(idle_log device).2]
      exact pairing_dispatch _ _ _ (by decide) (by decide)

theorem run_pairing (SSIZE_MAX PAGE_SIZE : Nat) (registry : List kgsl_pwrscale_policy)
    (ops : List Op) (device device1 : kgsl_device)
    (h : run SSIZE_MAX PAGE_SIZE registry ops device = Except.ok device1) :
    ∃ calls, hook_calls device1.log = hook_calls device.log ++ calls ∧
      pairing device.pwrscale.policy calls = some device1.pwrscale.policy := by
  induction ops generalizing device with
  | nil =>
    simp only [run, Except.ok.injEq] at h
    subst h
    exact ⟨[], by simp, rfl⟩
  | cons op ops ih =>
    simp only [run] at h
    cases hs : step SSIZE_MAX PAGE_SIZE registry device op with
    | error f =>
      rw [hs] at h
      cases h
    | ok d =>
      rw [hs] at h
      obtain ⟨c1, h1, h2⟩ := step_pairing SSIZE_MAX PAGE_SIZE registry device d op hs
      obtain ⟨c2, h3, h4⟩ := ih d h
      refine ⟨c1 ++ c2, ?_, ?_⟩
      · rw [h3, h1, List.append_assoc]
      · rw [pairing_append, h2]
        exact h4

theorem hooked_tail (registry : List kgsl_pwrscale_policy) (op : Op) (ops : List Op)
    (h : hooked registry (op :: ops)) : hooked registry ops := by
  intro Q hQ
  apply h Q
  rw [List.mem_append] at hQ ⊢
  rcases hQ with hQ | hQ
  · exact Or.inl hQ
  · right
    cases op <;> simp [attached, hQ]

theorem step_returns (SSIZE_MAX PAGE_SIZE : Nat) (registry : List kgsl_pwrscale_policy)
    (device : kgsl_device) (op : Op) (ops : List Op)
    (hh : hooked registry (op :: ops)) (hc : closable device) :
    ∃ device1, step SSIZE_MAX PAGE_SIZE registry device op = Except.ok device1 ∧
      closable device1 := by
  have hdet : ∃ d1, kgsl_pwrscale_detach_policy device = Except.ok d1 ∧ closable d1 := by
    obtain ⟨d1, h1, h2, -⟩ := detach_ok device hc
    refine ⟨d1, h1, ?_⟩
    intro P hP
    rw [h2] at hP
    cases hP
  have hatt : ∀ Q, Q.init ≠ none → Q.close = some () →
      ∃ ret d1, kgsl_pwrscale_attach_policy device Q = Except.ok (ret, d1) ∧
        closable d1 := by
    intro Q hi hcl
    cases hq : Q.init with
    | none => exact absurd hq hi
    | some ret =>
      obtain ⟨d1, h1, h2, -⟩ := attach_ok device Q ret hc hq
      refine ⟨ret, d1, h1, ?_⟩
      intro P hP
      rw [h2] at hP
      by_cases hr : ret = 0
      · simp [hr] at hP
        rw [← hP]
        exact hcl
      · simp [hr] at hP
  cases op with
  | attach Q =>
    have hQ := hh Q (by simp [attached])
    obtain ⟨ret, d1, h1, h2⟩ := hatt Q hQ.1 hQ.2
    exact ⟨d1, by simp [step, h1], h2⟩
  | detach => exact hdet
  | write buf count =>
    by_cases hn : strncmp "none".toList buf 4 = 0
    · obtain ⟨d1, h1, h2⟩ := hdet
      refine ⟨d1, ?_, h2⟩
      simp only [step]
      rw [store_of_keyword _ _ _ _ _ _ hn, h1]
    · cases hf : find_policy PAGE_SIZE registry buf with
      | none =>
        refine ⟨device, ?_, hc⟩
        simp only [step]
        rw [store_of_name _ _ _ _ _ _ hn, hf]
      | some Q =>
        have hmem := (find_policy_some PAGE_SIZE registry buf Q hf).1
        have hQ := hh Q (by simp [hmem])
        obtain ⟨ret, d1, h1, h2⟩ := hatt Q hQ.1 hQ.2
        refine ⟨d1, ?_, h2⟩
        simp only [step]
        rw [store_of_name _ _ _ _ _ _ hn, hf]
        dsimp only
        rw [h1]
        by_cases hr : ret = 0 <;> simp [hr]
  | sleep =>
    refine ⟨_, rfl, ?_⟩
    intro P hP
    rw [(sleep_log device).2] at hP
    exact hc P hP
  | wake =>
    refine ⟨_, rfl, ?_⟩
    intro P hP
    rw [(wake_log device).2] at hP
    exact hc P hP
  | busy =>
    refine ⟨_, rfl, ?_⟩
    intro P hP
    rw [(busy_log device).2] at hP
    exact hc P hP
  | idle =>
    refine ⟨_, rfl, ?_⟩
    intro P hP
    rw [(idle_log device).2] at hP
    exact hc P hP

theorem run_returns (SSIZE_MAX PAGE_SIZE : Nat) (registry : List kgsl_pwrscale_policy)
    (ops : List Op) (device : kgsl_device)
    (hh : hooked registry ops) (hc : closable device) :
    ∃ device1, run SSIZE_MAX PAGE_SIZE registry ops device = Except.ok device1 := by
  induction ops generalizing device with
  | nil => exact ⟨device, rfl⟩
  | cons op ops ih =>
    obtain ⟨d1, h1, h2⟩ := step_returns SSIZE_MAX PAGE_SIZE registry device op ops hh hc
    obtain ⟨d2, h3⟩ := ih d1 (hooked_tail registry op ops hh) h2
    refine ⟨d2, ?_⟩
    simp only [run, h1]
    exact h3

theorem detach_fault (device : kgsl_device) (f : Fault)
    (h : kgsl_pwrscale_detach_policy device = Except.error f) :
    ∃ dF, f = Fault.null_call Hook.close dF ∧ dF.pwrscale = device.pwrscale ∧
      hook_calls dF.log = hook_calls device.log := by
  cases hp : device.pwrscale.policy with
  | none =>
    rw [detach_empty device hp] at h
    cases h
  | some P =>
    cases hcl : P.close with
    | some u =>
      rw [detach_occupied device P hp hcl] at h
      cases h
    | none =>
      rw [detach_null_close device P hp hcl] at h
      cases h
      exact ⟨_, rfl, rfl, by simp [hook_calls, Event.hook_call]⟩

theorem attach_fault (device : kgsl_device) (Q : kgsl_pwrscale_policy) (f : Fault)
    (h : kgsl_pwrscale_attach_policy device Q = Except.error f) :
    (∃ dF, f = Fault.null_call Hook.close dF ∧ dF.pwrscale = device.pwrscale ∧
      hook_calls dF.log = hook_calls device.log) ∨
    (∃ dF, f = Fault.null_call Hook.init dF ∧ Q.init = none) := by
  by_cases hc : closable device
  · cases hi : Q.init with
    | none =>
      obtain ⟨dF, hd, -, -⟩ := attach_null_init device Q hc hi
      rw [hd] at h
      cases h
      exact Or.inr ⟨dF, rfl, rfl⟩
    | some r =>
      obtain ⟨d1, hd, -, -⟩ := attach_ok device Q r hc hi
      rw [hd] at h
      cases h
  · left
    have hex : ∃ P, device.pwrscale.policy = some P ∧ P.close = none := by
      unfold closable at hc
      push_neg at hc
      obtain ⟨P, hP, hcl⟩ := hc
      refine ⟨P, hP, ?_⟩
      cases hq : P.close with
      | none => rfl
      | some u => exact absurd hq hcl
    obtain ⟨P, hP, hcl⟩ := hex
    have hd := detach_null_close (record device Event.load_policy) P
      (by simpa [record] using hP) hcl
    simp only [record] at hd
    simp only [kgsl_pwrscale_attach_policy, record, hP, hd] at h
    cases h
    exact ⟨_, rfl, rfl, by simp [hook_calls, Event.hook_call]⟩

theorem store_fault (SSIZE_MAX PAGE_SIZE : Nat) (registry : List kgsl_pwrscale_policy)
    (device : kgsl_device) (buf : List Char) (count : Nat) (f : Fault)
    (h : pwrscale_policy_store SSIZE_MAX PAGE_SIZE registry device buf count
      = Except.error f) :
    (∃ dF, f = Fault.null_call Hook.close dF ∧ dF.pwrscale = device.pwrscale ∧
      hook_calls dF.log = hook_calls device.log) ∨
    (∃ dF Q, f = Fault.null_call Hook.init dF ∧ Q.init = none ∧ Q ∈ registry) := by
  by_cases hn : strncmp "none".toList buf 4 = 0
  · rw [store_of_keyword _ _ _ _ _ _ hn] at h
    cases hd : kgsl_pwrscale_detach_policy device with
    | ok d =>
      rw [hd] at h
      cases h
    | error g =>
      rw [hd] at h
      cases h
      exact Or.inl (detach_fault device f hd)
  · rw [store_of_name _ _ _ _ _ _ hn] at h
    cases hf : find_policy PAGE_SIZE registry buf with
    | none =>
      rw [hf] at h
      cases h
    | some Q =>
      rw [hf] at h
      dsimp only at h
      cases ha : kgsl_pwrscale_attach_policy device Q with
      | ok rd =>
        obtain ⟨ret, d⟩ := rd
        rw [ha] at h
        by_cases hr : ret = 0 <;> simp [hr] at h
      | error g =>
        rw [ha] at h
        cases h
        rcases attach_fault device Q f ha with hcl | ⟨dF, hF, hi⟩
        · exact Or.inl hcl
        · exact Or.inr ⟨dF, Q, hF, hi, (find_policy_some PAGE_SIZE registry buf Q hf).1⟩

theorem step_fault (SSIZE_MAX PAGE_SIZE : Nat) (registry : List kgsl_pwrscale_policy)
    (device : kgsl_device) (op : Op) (f : Fault)
    (h : step SSIZE_MAX PAGE_SIZE registry device op = Except.error f) :
    (∃ dF, f = Fault.null_call Hook.close dF ∧ dF.pwrscale = device.pwrscale ∧
      hook_calls dF.log = hook_calls device.log) ∨
    (∃ dF Q, f = Fault.null_call Hook.init dF ∧ Q.init = none ∧
      Q ∈ registry ++ attached [op]) := by
  cases op with
  | attach Q =>
    simp only [step] at h
    cases ha : kgsl_pwrscale_attach_policy device Q with
    | ok rd =>
      rw [ha] at h
      cases h
    | error g =>
      rw [ha] at h
      cases h
      rcases attach_fault device Q f ha with hcl | ⟨dF, hF, hi⟩
      · exact Or.inl hcl
      · exact Or.inr ⟨dF, Q, hF, hi, by simp [attached]⟩
  | detach => exact Or.inl (detach_fault device f h)
  | write buf count =>
    simp only [step] at h
    cases hs : pwrscale_policy_store SSIZE_MAX PAGE_SIZE registry device buf count with
    | ok rd =>
      rw [hs] at h
      cases h
    | error g =>
      rw [hs] at h
      cases h
      rcases store_fault SSIZE_MAX PAGE_SIZE registry device buf count f hs with
        hcl | ⟨dF, Q, hF, hi, hm⟩
      · exact Or.inl hcl
      · exact Or.inr ⟨dF, Q, hF, hi, by simp [hm]⟩
  | sleep => cases h
  | wake => cases h
  | busy => cases h
  | idle => cases h

theorem attached_cons (op : Op) (ops : List Op) :
    attached (op :: ops) = attached [op] ++ attached ops := by
  cases op <;> simp [attached]

theorem run_fault (SSIZE_MAX PAGE_SIZE : Nat) (registry : List kgsl_pwrscale_policy)
    (ops : List Op) (device : kgsl_device) (f : Fault)
    (h : run SSIZE_MAX PAGE_SIZE registry ops device = Except.error f) :
    (∃ dF calls, f = Fault.null_call Hook.close dF ∧
      hook_calls dF.log = hook_calls device.log ++ calls ∧
      pairing device.pwrscale.policy calls = some dF.pwrscale.policy) ∨
    (∃ dF Q, f = Fault.null_call Hook.init dF ∧ Q.init = none ∧
      Q ∈ registry ++ attached ops) := by
  induction ops generalizing device with
  | nil => simp [run] at h
  | cons op ops ih =>
    simp only [run] at h
    cases hs : step SSIZE_MAX PAGE_SIZE registry device op with
    | error g =>
      rw [hs] at h
      cases h
      rcases step_fault SSIZE_MAX PAGE_SIZE registry device op f hs with
        ⟨dF, hF, hp, hcalls⟩ | ⟨dF, Q, hF, hi, hm⟩
      · left
        refine ⟨dF, [], hF, by simp [hcalls], ?_⟩
        rw [hp]
        rfl
      · right
        refine ⟨dF, Q, hF, hi, ?_⟩
        rw [attached_cons, List.mem_append, List.mem_append]
        rw [List.mem_append] at hm
        tauto
    | ok d =>
      rw [hs] at h
      obtain ⟨c1, h1, h2⟩ := step_pairing SSIZE_MAX PAGE_SIZE registry device d op hs
      rcases ih d h with ⟨dF, c2, hF, h3, h4⟩ | ⟨dF, Q, hF, hi, hm⟩
      · left
        refine ⟨dF, c1 ++ c2, hF, ?_, ?_⟩
        · rw [h3, h1, List.append_assoc]
        · rw [pairing_append, h2]
          exact h4
      · right
        refine ⟨dF, Q, hF, hi, ?_⟩
        rw [attached_cons, List.mem_append, List.mem_append]
        rw [List.mem_append] at hm
        tauto

/-- C16, as stated, fails: the history that attaches, from the empty slot, a
policy whose `init` pointer is NULL stops at the call of that pointer with
the policy already stored in the slot, although no `init` was ever called. -/
theorem history_leaves_uninitialised_policy :
    ∃ dF, run 2147483647 4096 [] [Op.attach uninitialised] idle_device
        = Except.error (Fault.null_call Hook.init dF) ∧
      dF.pwrscale.policy = some uninitialised ∧
      hook_calls dF.log = [] ∧
      open_policy none (hook_calls dF.log) ≠ dF.pwrscale.policy := by
  refine ⟨kgsl_device.mk (kgsl_pwrscale.mk (some uninitialised))
    [Event.load_policy, Event.mutex_lock, Event.store_policy (some uninitialised),
      Event.load_policy], ?_, ?_, ?_, ?_⟩ <;> decide

/-- C16, amended: starting from an empty slot, for every finite sequence of
attach, detach, policy-write and notify operations executed one after another
that does not stop at the call of a NULL `init` pointer, in the state the
sequence reaches (at its end, or at the call of a NULL `close` pointer) the
hook calls made so far pair up (every `init` is called with no policy open,
every `close` is called on the policy whose `init` most recently succeeded)
and the slot holds exactly the policy that is open: the one of the most recent
`init` call if it succeeded and no `close` was called since.  No sequence
stops at a NULL `init` when every policy it can attach implements `init`, and
the sequence runs to its end when they implement `close` too. -/
theorem init_close_pairing (SSIZE_MAX PAGE_SIZE : Nat)
    (registry : List kgsl_pwrscale_policy) (ops : List Op) :
    ((∀ dF, run SSIZE_MAX PAGE_SIZE registry ops idle_device
        ≠ Except.error (Fault.null_call Hook.init dF)) →
      pairing none
          (hook_calls (reached (run SSIZE_MAX PAGE_SIZE registry ops idle_device)).log)
        = some (reached (run SSIZE_MAX PAGE_SIZE registry ops idle_device)).pwrscale.policy ∧
      open_policy none
          (hook_calls (reached (run SSIZE_MAX PAGE_SIZE registry ops idle_device)).log)
        = (reached (run SSIZE_MAX PAGE_SIZE registry ops idle_device)).pwrscale.policy) ∧
    ((∀ Q ∈ registry ++ attached ops, Q.init ≠ none) →
      ∀ dF, run SSIZE_MAX PAGE_SIZE registry ops idle_device
        ≠ Except.error (Fault.null_call Hook.init dF)) ∧
    (hooked registry ops →
      ∃ device1, run SSIZE_MAX PAGE_SIZE registry ops idle_device = Except.ok device1) := by
  refine ⟨?_, ?_, ?_⟩
  · intro hno
    have key : ∃ calls,
        hook_calls (reached (run SSIZE_MAX PAGE_SIZE registry ops idle_device)).log
          = hook_calls idle_device.log ++ calls ∧
        pairing idle_device.pwrscale.policy calls
          = some (reached (run SSIZE_MAX PAGE_SIZE registry ops idle_device)).pwrscale.policy := by
      cases hr : run SSIZE_MAX PAGE_SIZE registry ops idle_device with
      | ok d => exact run_pairing SSIZE_MAX PAGE_SIZE registry ops idle_device d hr
      | error f =>
        rcases run_fault SSIZE_MAX PAGE_SIZE registry ops idle_device f hr with
          ⟨dF, calls, hF, h1, h2⟩ | ⟨dF, Q, hF, -, -⟩
        · subst hF
          exact ⟨calls, h1, h2⟩
        · subst hF
          exact absurd hr (hno dF)
    obtain ⟨calls, h1, h2⟩ := key
    have h3 : hook_calls (reached (run SSIZE_MAX PAGE_SIZE registry ops idle_device)).log
        = calls := by
      rw [h1]
      rfl
    rw [h3]
    exact ⟨h2, pairing_open_policy _ _ _ h2⟩
  · intro hall dF hr
    rcases run_fault SSIZE_MAX PAGE_SIZE registry ops idle_device _ hr with
      ⟨dF1, calls, hF, -, -⟩ | ⟨dF1, Q, -, hi, hm⟩
    · cases hF
    · exact hall Q hm hi
  · intro hh
    exact run_returns SSIZE_MAX PAGE_SIZE registry ops idle_device hh (by decide)

/-- The history of the scenario: writes of `performance`, `ondemand`, `none`
and `bogus` with a `busy` event and a failing attach in between. -/
theorem init_close_pairing_witness :
    pairing none
        (hook_calls (reached (run 2147483647 4096 [ondemand, performance]
          [Op.write "performance".toList 11, Op.busy, Op.write "ondemand".toList 8,
            Op.attach broken, Op.write "none".toList 4, Op.write "bogus".toList 5]
          idle_device)).log)
      = some (reached (run 2147483647 4096 [ondemand, performance]
          [Op.write "performance".toList 11, Op.busy, Op.write "ondemand".toList 8,
            Op.attach broken, Op.write "none".toList 4, Op.write "bogus".toList 5]
          idle_device)).pwrscale.policy ∧
    open_policy none
        (hook_calls (reached (run 2147483647 4096 [ondemand, performance]
          [Op.write "performance".toList 11, Op.busy, Op.write "ondemand".toList 8,
            Op.attach broken, Op.write "none".toList 4, Op.write "bogus".toList 5]
          idle_device)).log)
      = (reached (run 2147483647 4096 [ondemand, performance]
          [Op.write "performance".toList 11, Op.busy, Op.write "ondemand".toList 8,
            Op.attach broken, Op.write "none".toList 4, Op.write "bogus".toList 5]
          idle_device)).pwrscale.policy :=
  (init_close_pairing 2147483647 4096 [ondemand, performance]
    [Op.write "performance".toList 11, Op.busy, Op.write "ondemand".toList 8,
      Op.attach broken, Op.write "none".toList 4, Op.write "bogus".toList 5]).1
    ((init_close_pairing 2147483647 4096 [ondemand, performance]
      [Op.write "performance".toList 11, Op.busy, Op.write "ondemand".toList 8,
        Op.attach broken, Op.write "none".toList 4, Op.write "bogus".toList 5]).2.1
      (by decide))

/-! ## Name resolution in registry order -/

theorem name_matches_iff (n : Nat) (p : kgsl_pwrscale_policy) (buf : List Char) :
    name_matches n p buf ↔ strncmp p.name buf (strnlen p.name n) = 0 :=
  (strncmp_strnlen_eq_zero_iff p.name buf n).symm

theorem find_policy_skip (n : Nat) (pre l : List kgsl_pwrscale_policy) (buf : List Char)
    (h : ∀ p ∈ pre, ¬ name_matches n p buf) :
    find_policy n (pre ++ l) buf = find_policy n l buf := by
  induction pre with
  | nil => rfl
  | cons a pre ih =>
    have ha : ¬ strncmp a.name buf (strnlen a.name n) = 0 := fun hz =>
      h a (List.mem_cons_self _ _) ((name_matches_iff n a buf).2 hz)
    simp only [List.cons_append, find_policy, ha, if_false]
    exact ih (fun p hp => h p (List.mem_cons_of_mem _ hp))

theorem find_policy_first (n : Nat) (pre post : List kgsl_pwrscale_policy)
    (Q : kgsl_pwrscale_policy) (buf : List Char)
    (h : ∀ p ∈ pre, ¬ name_matches n p buf) (hQ : name_matches n Q buf) :
    find_policy n (pre ++ Q :: post) buf = some Q := by
  rw [find_policy_skip n pre _ buf h]
  simp [find_policy, (name_matches_iff n Q buf).1 hQ]

theorem find_policy_shadowed (n : Nat) (pre post : List kgsl_pwrscale_policy)
    (q p : kgsl_pwrscale_policy) (buf : List Char)
    (hpre : p ∉ pre) (hne : p ≠ q)
    (hq : (cstr q.name).take n <+: (cstr p.name).take n) :
    find_policy n (pre ++ q :: post) buf ≠ some p := by
  intro hf
  have hp : name_matches n p buf := (find_policy_some n _ buf p hf).2
  have hqm : name_matches n q buf := List.IsPrefix.trans hq hp
  induction pre with
  | nil =>
    simp only [List.nil_append, find_policy, (name_matches_iff n q buf).1 hqm, if_true,
      Option.some.injEq] at hf
    exact hne hf.symm
  | cons a pre ih =>
    by_cases ha : strncmp a.name buf (strnlen a.name n) = 0
    · simp only [List.cons_append, find_policy, ha, if_true, Option.some.injEq] at hf
      exact hpre (hf ▸ List.mem_cons_self _ _)
    · simp only [List.cons_append, find_policy, ha, if_false] at hf
      exact ih (fun hm => hpre (List.mem_cons_of_mem _ hm)) hf

/-- C17: for every registry and every written buffer that does not begin
with `none`, `pwrscale_policy_store` attempts to attach exactly the first
policy in registry order whose name, over its length capped at `PAGE_SIZE`, is
a prefix of the buffer, and attempts no attach (it returns `count` and changes
nothing) when no registered name is a prefix of the buffer.  Hence a buffer
made of a registered name followed by any characters selects that policy
unless an earlier entry matches, a policy with an empty name matches every
buffer, and a policy is never selected when the name of an earlier, different
entry is a prefix of its name. -/
theorem store_attaches_first_match (SSIZE_MAX PAGE_SIZE : Nat)
    (registry : List kgsl_pwrscale_policy) (device : kgsl_device)
    (buf : List Char) (count : Nat) (hnone : buf.take 4 ≠ "none".toList) :
    (∀ pre Q post, registry = pre ++ Q :: post →
      (∀ p ∈ pre, ¬ name_matches PAGE_SIZE p buf) → name_matches PAGE_SIZE Q buf →
      find_policy PAGE_SIZE registry buf = some Q ∧
      pwrscale_policy_store SSIZE_MAX PAGE_SIZE registry device buf count
        = store_attach SSIZE_MAX device Q count) ∧
    ((∀ p ∈ registry, ¬ name_matches PAGE_SIZE p buf) →
      find_policy PAGE_SIZE registry buf = none ∧
      pwrscale_policy_store SSIZE_MAX PAGE_SIZE registry device buf count
        = Except.ok (to_ssize_t SSIZE_MAX count, device)) ∧
    (∀ pre p post rest, registry = pre ++ p :: post → buf = cstr p.name ++ rest →
      (∀ q ∈ pre, ¬ name_matches PAGE_SIZE q buf) →
      pwrscale_policy_store SSIZE_MAX PAGE_SIZE registry device buf count
        = store_attach SSIZE_MAX device p count) ∧
    (∀ p, cstr p.name = [] → name_matches PAGE_SIZE p buf) ∧
    (∀ pre q post p, registry = pre ++ q :: post → p ∉ pre → p ≠ q →
      (cstr q.name).take PAGE_SIZE <+: (cstr p.name).take PAGE_SIZE →
      find_policy PAGE_SIZE registry buf ≠ some p) := by
  have hn : ¬ strncmp "none".toList buf 4 = 0 := fun h => hnone ((keyword_iff_take buf).1 h)
  have hfirst : ∀ pre Q post, registry = pre ++ Q :: post →
      (∀ p ∈ pre, ¬ name_matches PAGE_SIZE p buf) → name_matches PAGE_SIZE Q buf →
      find_policy PAGE_SIZE registry buf = some Q ∧
      pwrscale_policy_store SSIZE_MAX PAGE_SIZE registry device buf count
        = store_attach SSIZE_MAX device Q count := by
    intro pre Q post hreg hpre hQ
    have hf : find_policy PAGE_SIZE registry buf = some Q := by
      rw [hreg]
      exact find_policy_first PAGE_SIZE pre post Q buf hpre hQ
    refine ⟨hf, ?_⟩
    rw [store_of_name _ _ _ _ _ _ hn, hf]
    rfl
  refine ⟨hfirst, ?_, ?_, ?_, ?_⟩
  · intro hno
    have hf : find_policy PAGE_SIZE registry buf = none :=
      (find_policy_eq_none_iff PAGE_SIZE registry buf).2 hno
    refine ⟨hf, ?_⟩
    rw [store_of_name _ _ _ _ _ _ hn, hf]
  · intro pre p post rest hreg hbuf hpre
    refine (hfirst pre p post hreg hpre ?_).2
    unfold name_matches
    rw [hbuf]
    exact List.IsPrefix.trans (List.take_prefix _ _) (List.prefix_append _ _)
  · intro p hp
    unfold name_matches
    rw [hp]
    simp
  · intro pre q post p hreg hpre hne hq
    rw [hreg]
    exact find_policy_shadowed PAGE_SIZE pre post q p buf hpre hne hq

/-- With `perf` registered before `performance`, a write of `performance` and
a newline attempts to attach `perf`. -/
theorem store_attaches_first_match_witness :
    find_policy 4096 [perf, performance] "performance\n".toList = some perf ∧
    pwrscale_policy_store 2147483647 4096 [perf, performance] idle_device
        "performance\n".toList 12 = store_attach 2147483647 idle_device perf 12 :=
  (store_attaches_first_match 2147483647 4096 [perf, performance] idle_device
    "performance\n".toList 12 (by decide)).1 [] perf [performance] rfl
    (by decide) (by decide)

/-! ## The keyword and the compiled-in registry -/

theorem keyword_of_name_matches (n : Nat) (p : kgsl_pwrscale_policy) (buf : List Char)
    (hn : 4 ≤ n) (hname : "none".toList <+: p.name) (hm : name_matches n p buf) :
    strncmp "none".toList buf 4 = 0 := by
  rw [strncmp_none_eq_zero_iff]
  obtain ⟨rest, hrest⟩ := hname
  have hc : cstr p.name = "none".toList ++ cstr rest := by
    rw [← hrest]
    simp [cstr, NUL]
  unfold name_matches at hm
  rw [hc] at hm
  obtain ⟨m, rfl⟩ : ∃ m, n = 4 + m := ⟨n - 4, by omega⟩
  have ht : List.take (4 + m) ('n' :: 'o' :: 'n' :: 'e' :: cstr rest)
      = 'n' :: 'o' :: 'n' :: 'e' :: List.take m (cstr rest) := by
    rw [Nat.add_comm]
    rfl
  change List.take (4 + m) ('n' :: 'o' :: 'n' :: 'e' :: cstr rest) <+: buf at hm
  rw [ht] at hm
  have hpre : "none".toList <+: 'n' :: 'o' :: 'n' :: 'e' :: List.take m (cstr rest) :=
    ⟨List.take m (cstr rest), rfl⟩
  exact List.IsPrefix.trans hpre hm

/-- C18, as stated, fails: with `nonesuch` registered and the slot holding a
policy whose `close` pointer is NULL, writing the name `nonesuch` does not
leave the slot empty; the detach calls the NULL pointer. -/
theorem store_nonesuch_unclosable_slot :
    nonesuch ∈ [nonesuch] ∧ "none".toList <+: nonesuch.name ∧
    pwrscale_policy_store 2147483647 4096 [nonesuch] (device_with unclosable) nonesuch.name 8
      = Except.error (Fault.null_call Hook.close
          (kgsl_device.mk (kgsl_pwrscale.mk (some unclosable))
          [Event.mutex_lock, Event.load_policy, Event.load_policy])) ∧
    ¬ ∃ r device1,
        pwrscale_policy_store 2147483647 4096 [nonesuch] (device_with unclosable) nonesuch.name 8
          = Except.ok (r, device1) ∧ device1.pwrscale.policy = none := by
  have h : pwrscale_policy_store 2147483647 4096 [nonesuch] (device_with unclosable) nonesuch.name 8
      = Except.error (Fault.null_call Hook.close
          (kgsl_device.mk (kgsl_pwrscale.mk (some unclosable))
          [Event.mutex_lock, Event.load_policy, Event.load_policy])) := by decide
  refine ⟨by decide, by decide, h, ?_⟩
  rintro ⟨r, device1, h1, -⟩
  rw [h] at h1
  cases h1

/-- C18, amended: for every registry containing a policy `p` whose name begins
with the four characters `none` (and a page of at least 4 bytes), writing the
name of `p` on a slot that is empty or holds a policy implementing `close`
detaches the current policy, calls no `init`, returns `count` and leaves the
slot empty; and no write through `pwrscale_policy_store`, on any slot that
does not hold `p` already, leaves `p` in the slot. -/
theorem keyword_shadows_name (SSIZE_MAX PAGE_SIZE : Nat) (registry : List kgsl_pwrscale_policy)
    (device : kgsl_device) (p : kgsl_pwrscale_policy) (count : Nat)
    (hpage : 4 ≤ PAGE_SIZE) (_hp : p ∈ registry) (hname : "none".toList <+: p.name) :
    (closable device →
      ∃ device1, pwrscale_policy_store SSIZE_MAX PAGE_SIZE registry device p.name count
          = Except.ok (to_ssize_t SSIZE_MAX count, device1) ∧
        device1.pwrscale.policy = none ∧
        hook_calls device1.log = hook_calls device.log ++
          (match device.pwrscale.policy with
           | none => []
           | some P => [(Hook.close, P)])) ∧
    (∀ buf cnt r device1, device.pwrscale.policy ≠ some p →
      pwrscale_policy_store SSIZE_MAX PAGE_SIZE registry device buf cnt = Except.ok (r, device1) →
      device1.pwrscale.policy ≠ some p) := by
  refine ⟨?_, ?_⟩
  · intro hc
    have hn : strncmp "none".toList p.name 4 = 0 :=
      (strncmp_none_eq_zero_iff p.name).2 hname
    obtain ⟨device1, h1, h2, h3⟩ := detach_ok device hc
    refine ⟨device1, ?_, h2, ?_⟩
    · rw [store_of_keyword _ _ _ _ _ _ hn, h1]
    · rw [h3]
      cases device.pwrscale.policy <;> rfl
  · intro buf cnt r device1 hslot hs
    rcases store_cases SSIZE_MAX PAGE_SIZE registry device device1 buf cnt r hs with
      ⟨-, hd, -⟩ | ⟨-, -, hd, -⟩ | ⟨hn, Q, ret, hf, ha, -⟩
    · rw [(detach_log device device1 hd).2.1]
      simp
    · rw [hd]
      exact hslot
    · intro hp1
      have hpol := (attach_log device device1 Q ret ha).2.2.1
      rw [hp1] at hpol
      by_cases hr : ret = 0
      · simp [hr] at hpol
        have hm := (find_policy_some PAGE_SIZE registry buf Q hf).2
        rw [← hpol] at hm
        exact hn (keyword_of_name_matches PAGE_SIZE p buf hpage hname hm)
      · simp [hr] at hpol

/-- With `nonesuch` registered, a write of its name on a slot holding
`ondemand` detaches `ondemand` and attaches nothing. -/
theorem keyword_shadows_name_witness :
    ∃ device1, pwrscale_policy_store 2147483647 4096 [ondemand, nonesuch] (device_with ondemand)
        nonesuch.name 8 = Except.ok (to_ssize_t 2147483647 8, device1) ∧
      device1.pwrscale.policy = none ∧
      hook_calls device1.log = hook_calls (device_with ondemand).log ++
        (match (device_with ondemand).pwrscale.policy with
         | none => []
         | some P => [(Hook.close, P)]) :=
  (keyword_shadows_name 2147483647 4096 [ondemand, nonesuch] (device_with ondemand) nonesuch 8
    (by decide) (by decide) (by decide)).1 (by decide)

/-- C19, as stated, fails, in two ways: with the empty registry and the slot
holding a policy whose `close` pointer is NULL, a write of `none` and a
newline does not return `count`, the detach calls the NULL pointer; and a
write of `bogus` with `count = 4294967291` on a platform whose `SSIZE_MAX` is
`2147483647` returns `-EIO`. -/
theorem store_empty_registry_unclosable_slot :
    pwrscale_policy_store 2147483647 4096 [] (device_with unclosable) "none\n".toList 5
      = Except.error (Fault.null_call Hook.close
          (kgsl_device.mk (kgsl_pwrscale.mk (some unclosable))
            [Event.mutex_lock, Event.load_policy, Event.load_policy])) ∧
    (¬ ∃ device1,
        pwrscale_policy_store 2147483647 4096 [] (device_with unclosable)
          "none\n".toList 5 = Except.ok (5, device1)) ∧
    pwrscale_policy_store 2147483647 4096 [] idle_device "bogus".toList 4294967291
      = Except.ok (- EIO, idle_device) := by
  have h : pwrscale_policy_store 2147483647 4096 [] (device_with unclosable)
      "none\n".toList 5
      = Except.error (Fault.null_call Hook.close
          (kgsl_device.mk (kgsl_pwrscale.mk (some unclosable))
            [Event.mutex_lock, Event.load_policy, Event.load_policy])) := by decide
  refine ⟨h, ?_, by decide⟩
  rintro ⟨device1, h1⟩
  rw [h] at h1
  cases h1

/-- C19, amended: with the registry as compiled into this source (no entry
before the terminating NULL), for every written buffer `pwrscale_policy_store`
never calls `kgsl_pwrscale_attach_policy`: it is a detach when the buffer
begins with `none` and changes nothing otherwise, and whenever it returns it
returns `count` as an `ssize_t`; for `count` not above `SSIZE_MAX` that value
is `count` and never `-EIO`, and the write does return on every slot that is
empty or holds a policy implementing `close`; and, for a page of more than 5
bytes, `pwrscale_avail_policies_show` produces exactly `none` followed by a
newline, with return value 5. -/
theorem empty_registry_behaviour (SSIZE_MAX PAGE_SIZE : Nat) (device : kgsl_device)
    (buf : List Char) (count : Nat) :
    (buf.take 4 = "none".toList →
      pwrscale_policy_store SSIZE_MAX PAGE_SIZE [] device buf count
        = (match kgsl_pwrscale_detach_policy device with
           | Except.error f => Except.error f
           | Except.ok device1 => Except.ok (to_ssize_t SSIZE_MAX count, device1))) ∧
    (buf.take 4 ≠ "none".toList →
      pwrscale_policy_store SSIZE_MAX PAGE_SIZE [] device buf count
        = Except.ok (to_ssize_t SSIZE_MAX count, device)) ∧
    (∀ r device1, pwrscale_policy_store SSIZE_MAX PAGE_SIZE [] device buf count
        = Except.ok (r, device1) →
      r = to_ssize_t SSIZE_MAX count ∧
        ∀ Q, (Hook.init, Q) ∈ hook_calls device1.log →
          (Hook.init, Q) ∈ hook_calls device.log) ∧
    (count ≤ SSIZE_MAX →
      ∀ r device1, pwrscale_policy_store SSIZE_MAX PAGE_SIZE [] device buf count
        = Except.ok (r, device1) →
      r = (count : Int) ∧ r ≠ - EIO) ∧
    (count ≤ SSIZE_MAX → closable device →
      ∃ device1, pwrscale_policy_store SSIZE_MAX PAGE_SIZE [] device buf count
        = Except.ok ((count : Int), device1)) ∧
    (5 < PAGE_SIZE → ∀ out,
      pwrscale_avail_policies_show PAGE_SIZE [] device out
        = (5, "none\n".toList, device)) := by
  have hkey : buf.take 4 = "none".toList →
      pwrscale_policy_store SSIZE_MAX PAGE_SIZE [] device buf count
        = (match kgsl_pwrscale_detach_policy device with
           | Except.error f => Except.error f
           | Except.ok device1 => Except.ok (to_ssize_t SSIZE_MAX count, device1)) := by
    intro hk
    rw [store_of_keyword _ _ _ _ _ _ ((keyword_iff_take buf).2 hk)]
  have hname : buf.take 4 ≠ "none".toList →
      pwrscale_policy_store SSIZE_MAX PAGE_SIZE [] device buf count
        = Except.ok (to_ssize_t SSIZE_MAX count, device) := by
    intro hk
    rw [store_of_name _ _ _ _ _ _ (fun h => hk ((keyword_iff_take buf).1 h))]
    rfl
  have hneg : (count : Int) ≠ - EIO := by
    have : (0 : Int) ≤ (count : Int) := Int.natCast_nonneg count
    unfold EIO
    omega
  have hret : ∀ r device1, pwrscale_policy_store SSIZE_MAX PAGE_SIZE [] device buf count
      = Except.ok (r, device1) →
      r = to_ssize_t SSIZE_MAX count ∧
        ∀ Q, (Hook.init, Q) ∈ hook_calls device1.log →
          (Hook.init, Q) ∈ hook_calls device.log := by
    intro r device1 hs
    rcases store_cases SSIZE_MAX PAGE_SIZE [] device device1 buf count r hs with
      ⟨-, hd, hr⟩ | ⟨-, -, hd, hr⟩ | ⟨-, Q, ret, hf, -, -⟩
    · refine ⟨hr, ?_⟩
      intro Q hQ
      rw [(detach_log device device1 hd).2.2, hook_calls_append,
        hook_calls_detach_trace, List.mem_append] at hQ
      rcases hQ with hQ | hQ
      · exact hQ
      · cases hpol : device.pwrscale.policy <;> simp [hpol, detach_calls] at hQ
    · refine ⟨hr, ?_⟩
      intro Q hQ
      rw [hd] at hQ
      exact hQ
    · simp [find_policy] at hf
  refine ⟨hkey, hname, hret, ?_, ?_, ?_⟩
  · intro hcount r device1 hs
    have hr := (hret r device1 hs).1
    rw [to_ssize_t_of_le SSIZE_MAX count hcount] at hr
    exact ⟨hr, by rw [hr]; exact hneg⟩
  · intro hcount hc
    by_cases hk : buf.take 4 = "none".toList
    · obtain ⟨device1, h1, -, -⟩ := detach_ok device hc
      exact ⟨device1, by rw [hkey hk, h1, to_ssize_t_of_le SSIZE_MAX count hcount]⟩
    · exact ⟨device, by rw [hname hk, to_ssize_t_of_le SSIZE_MAX count hcount]⟩
  · intro hpage out
    have h := snprintf_fits out 0 PAGE_SIZE "none\n".toList
      (by simpa using hpage)
    simp only [Nat.cast_zero, Int.toNat_zero, List.take_zero, List.nil_append] at h
    simp only [pwrscale_avail_policies_show, avail_policies_loop, Int.toNat_zero]
    rw [h]
    rfl

/-- With the empty registry: a write of `none` on a slot holding `ondemand`,
and the read of `avail_policies`. -/
theorem empty_registry_behaviour_witness :
    (∃ device1, pwrscale_policy_store 2147483647 4096 [] (device_with ondemand)
        "none\n".toList 5 = Except.ok (((5 : Nat) : Int), device1)) ∧
    pwrscale_avail_policies_show 4096 [] (device_with ondemand) []
      = (5, "none\n".toList, device_with ondemand) :=
  ⟨(empty_registry_behaviour 2147483647 4096 (device_with ondemand)
      "none\n".toList 5).2.2.2.2.1 (by decide) (by decide),
   (empty_registry_behaviour 2147483647 4096 (device_with ondemand)
      "none\n".toList 5).2.2.2.2.2 (by decide) []⟩

/-! ## Concurrent calls -/

/-- The function `kgsl_pwrscale_attach_policy` is its entry test, the detach
when the test finds the slot occupied, and its locked section, in sequence. -/
theorem attach_split (device : kgsl_device) (Q : kgsl_pwrscale_policy) :
    kgsl_pwrscale_attach_policy device Q
      = (match (if (attach_test device).1
            then kgsl_pwrscale_detach_policy (attach_test device).2
            else Except.ok (attach_test device).2) with
         | Except.error f => Except.error f
         | Except.ok device1 => attach_locked device1 Q) := by
  cases hp : device.pwrscale.policy with
  | none =>
    simp [kgsl_pwrscale_attach_policy, attach_test, attach_locked, record, hp]
  | some P =>
    simp only [kgsl_pwrscale_attach_policy, attach_test, record, hp, Option.isSome_some,
      if_true]
    cases kgsl_pwrscale_detach_policy
      (kgsl_device.mk device.pwrscale (device.log ++ [Event.load_policy])) with
    | error f => rfl
    | ok d => rfl

/-- A call of attach running alone, step after step, is the function
`kgsl_pwrscale_attach_policy`; a call of detach alone is
`kgsl_pwrscale_detach_policy`. -/
theorem interleave_alone (device : kgsl_device) (Q : kgsl_pwrscale_policy) :
    Except.map Prod.snd (interleave [0, 0, 0] [Thread.attach_entry Q] device)
      = Except.map Prod.snd (kgsl_pwrscale_attach_policy device Q) ∧
    Except.map Prod.snd (interleave [0] [Thread.detach_entry] device)
      = kgsl_pwrscale_detach_policy device := by
  constructor
  · rw [attach_split]
    cases hp : (attach_test device).1 with
    | false =>
      simp only [interleave, thread_step, hp, List.getElem?_cons_zero, List.set_cons_zero,
        Bool.false_eq_true, if_false]
      cases attach_locked (attach_test device).2 Q with
      | error f => rfl
      | ok rd => rfl
    | true =>
      simp only [interleave, thread_step, hp, List.getElem?_cons_zero, List.set_cons_zero,
        if_true]
      cases kgsl_pwrscale_detach_policy (attach_test device).2 with
      | error f => rfl
      | ok d =>
        simp only [List.getElem?_cons_zero, thread_step, List.set_cons_zero]
        cases attach_locked d Q with
        | error f => rfl
        | ok rd => rfl
  · simp only [interleave, thread_step, List.getElem?_cons_zero, List.set_cons_zero]
    cases kgsl_pwrscale_detach_policy device with
    | error f => rfl
    | ok d => rfl

theorem single_owner_append (slot : Option kgsl_pwrscale_policy)
    (a b : List (Hook × kgsl_pwrscale_policy)) :
    single_owner slot (a ++ b) = (single_owner slot a).bind (fun s => single_owner s b) := by
  induction a generalizing slot with
  | nil => simp [single_owner]
  | cons c cs ih =>
    obtain ⟨h, P⟩ := c
    cases h <;> simp only [List.cons_append, single_owner]
    · exact ih _
    · split
      · exact ih _
      · rfl
    · exact ih _
    · exact ih _
    · exact ih _
    · exact ih _

theorem single_owner_detach (slot : Option kgsl_pwrscale_policy) :
    single_owner slot (detach_calls slot) = some none := by
  cases slot <;> simp [single_owner, detach_calls]

theorem attach_locked_ok (device device1 : kgsl_device) (Q : kgsl_pwrscale_policy)
    (ret : Int) (h : attach_locked device Q = Except.ok (ret, device1)) :
    hook_calls device1.log = hook_calls device.log ++ [(Hook.init, Q)] ∧
      device1.pwrscale.policy = (if Q.init = some 0 then some Q else none) := by
  cases hi : Q.init with
  | none => simp [attach_locked, hi] at h
  | some r =>
    by_cases hr : r = 0 <;>
      simp [attach_locked, record, set_policy, hi, hr] at h <;>
      obtain ⟨-, h2⟩ := h <;> subst h2 <;>
      simp [hook_calls, Event.hook_call, hr]

theorem attach_locked_fault (device : kgsl_device) (Q : kgsl_pwrscale_policy) (f : Fault)
    (h : attach_locked device Q = Except.error f) :
    ∃ dF, f = Fault.null_call Hook.init dF ∧ Q.init = none := by
  cases hi : Q.init with
  | none =>
    simp only [attach_locked, hi] at h
    cases h
    exact ⟨_, rfl, rfl⟩
  | some r => simp [attach_locked, hi] at h

theorem thread_step_owner (device device1 : kgsl_device) (t t1 : Thread)
    (h : thread_step device t = Except.ok (t1, device1)) :
    (∃ calls, hook_calls device1.log = hook_calls device.log ++ calls ∧
      single_owner device.pwrscale.policy calls = some device1.pwrscale.policy) ∧
    (initialisable t → initialisable t1) := by
  have hdet : ∀ d1, kgsl_pwrscale_detach_policy device = Except.ok d1 →
      ∃ calls, hook_calls d1.log = hook_calls device.log ++ calls ∧
        single_owner device.pwrscale.policy calls = some d1.pwrscale.policy := by
    intro d1 hd
    obtain ⟨-, hp, hl⟩ := detach_log device d1 hd
    refine ⟨detach_calls device.pwrscale.policy, ?_, ?_⟩
    · rw [hl, hook_calls_append, hook_calls_detach_trace]
    · rw [hp, single_owner_detach]
  cases t with
  | attach_entry Q =>
    simp only [thread_step, attach_test, record, Except.ok.injEq, Prod.mk.injEq] at h
    obtain ⟨h1, h2⟩ := h
    subst h2
    refine ⟨⟨[], by simp [hook_calls, Event.hook_call], rfl⟩, ?_⟩
    intro hi
    rw [← h1]
    split <;> exact hi
  | attach_detach Q =>
    simp only [thread_step] at h
    cases hd : kgsl_pwrscale_detach_policy device with
    | error f =>
      rw [hd] at h
      cases h
    | ok d =>
      rw [hd] at h
      cases h
      exact ⟨hdet _ hd, fun hi => hi⟩
  | attach_section Q =>
    simp only [thread_step] at h
    cases ha : attach_locked device Q with
    | error f =>
      rw [ha] at h
      cases h
    | ok rd =>
      obtain ⟨ret, d⟩ := rd
      rw [ha] at h
      cases h
      obtain ⟨h1, h2⟩ := attach_locked_ok device _ Q ret ha
      refine ⟨⟨[(Hook.init, Q)], h1, ?_⟩, fun _ => trivial⟩
      rw [h2]
      simp [single_owner]
  | detach_entry =>
    simp only [thread_step] at h
    cases hd : kgsl_pwrscale_detach_policy device with
    | error f =>
      rw [hd] at h
      cases h
    | ok d =>
      rw [hd] at h
      cases h
      exact ⟨hdet _ hd, fun _ => trivial⟩
  | returned =>
    simp only [thread_step, Except.ok.injEq, Prod.mk.injEq] at h
    obtain ⟨h1, h2⟩ := h
    subst h1
    subst h2
    exact ⟨⟨[], by simp, rfl⟩, fun hi => hi⟩

theorem thread_step_fault (device : kgsl_device) (t : Thread) (f : Fault)
    (h : thread_step device t = Except.error f) :
    (∃ dF, f = Fault.null_call Hook.close dF ∧ dF.pwrscale = device.pwrscale ∧
      hook_calls dF.log = hook_calls device.log) ∨
    (∃ dF, f = Fault.null_call Hook.init dF ∧ ¬ initialisable t) := by
  cases t with
  | attach_entry Q => simp [thread_step] at h
  | attach_detach Q =>
    simp only [thread_step] at h
    cases hd : kgsl_pwrscale_detach_policy device with
    | ok d =>
      rw [hd] at h
      cases h
    | error g =>
      rw [hd] at h
      cases h
      exact Or.inl (detach_fault device f hd)
  | attach_section Q =>
    simp only [thread_step] at h
    cases ha : attach_locked device Q with
    | ok rd =>
      rw [ha] at h
      cases h
    | error g =>
      rw [ha] at h
      cases h
      obtain ⟨dF, hF, hi⟩ := attach_locked_fault device Q f ha
      exact Or.inr ⟨dF, hF, by simp [initialisable, hi]⟩
  | detach_entry =>
    simp only [thread_step] at h
    cases hd : kgsl_pwrscale_detach_policy device with
    | ok d =>
      rw [hd] at h
      cases h
    | error g =>
      rw [hd] at h
      cases h
      exact Or.inl (detach_fault device f hd)
  | returned => simp [thread_step] at h

theorem interleave_owner (schedule : List Nat) (threads : List Thread)
    (device : kgsl_device) :
    (∃ calls,
      hook_calls (reached_device (interleave schedule threads device)).log
        = hook_calls device.log ++ calls ∧
      single_owner device.pwrscale.policy calls
        = some (reached_device (interleave schedule threads device)).pwrscale.policy) ∨
    (∃ dF, interleave schedule threads device
        = Except.error (Fault.null_call Hook.init dF) ∧
      ∃ t ∈ threads, ¬ initialisable t) := by
  induction schedule generalizing threads device with
  | nil => exact Or.inl ⟨[], by simp [interleave, reached_device], rfl⟩
  | cons i schedule ih =>
    cases ht : threads[i]? with
    | none =>
      simp only [interleave, ht]
      exact ih threads device
    | some t =>
      have htm : t ∈ threads := List.getElem?_mem ht
      cases hs : thread_step device t with
      | error f =>
        simp only [interleave, ht, hs]
        rcases thread_step_fault device t f hs with ⟨dF, hF, hp, hc⟩ | ⟨dF, hF, hi⟩
        · subst hF
          exact Or.inl ⟨[], by simp [reached_device, hc],
            by simp [reached_device, hp, single_owner]⟩
        · subst hF
          exact Or.inr ⟨dF, rfl, t, htm, hi⟩
      | ok td =>
        obtain ⟨t1, d1⟩ := td
        simp only [interleave, ht, hs]
        obtain ⟨⟨c1, h1, h2⟩, hinit⟩ := thread_step_owner device d1 t t1 hs
        rcases ih (threads.set i t1) d1 with ⟨c2, h3, h4⟩ | ⟨dF, hF, t2, ht2, hi2⟩
        · left
          refine ⟨c1 ++ c2, ?_, ?_⟩
          · rw [h3, h1, List.append_assoc]
          · rw [single_owner_append, h2]
            exact h4
        · right
          refine ⟨dF, hF, ?_⟩
          rcases List.mem_or_eq_of_mem_set ht2 with hm | he
          · exact ⟨t2, hm, hi2⟩
          · subst he
            exact ⟨t, htm, fun hi => hi2 (hinit hi)⟩

theorem interleave_init_fault (schedule : List Nat) (threads : List Thread)
    (device dF : kgsl_device)
    (h : interleave schedule threads device = Except.error (Fault.null_call Hook.init dF)) :
    ∃ t ∈ threads, ¬ initialisable t := by
  induction schedule generalizing threads device with
  | nil => simp [interleave] at h
  | cons i schedule ih =>
    cases ht : threads[i]? with
    | none =>
      simp only [interleave, ht] at h
      exact ih threads device h
    | some t =>
      have htm : t ∈ threads := List.getElem?_mem ht
      cases hs : thread_step device t with
      | error f =>
        simp only [interleave, ht, hs, Except.error.injEq] at h
        rcases thread_step_fault device t f hs with ⟨d, hF, -, -⟩ | ⟨d, -, hi⟩
        · rw [hF] at h
          cases h
        · exact ⟨t, htm, hi⟩
      | ok td =>
        obtain ⟨t1, d1⟩ := td
        simp only [interleave, ht, hs] at h
        obtain ⟨-, hinit⟩ := thread_step_owner device d1 t t1 hs
        obtain ⟨t2, ht2, hi2⟩ := ih (threads.set i t1) d1 h
        rcases List.mem_or_eq_of_mem_set ht2 with hm | he
        · exact ⟨t2, hm, hi2⟩
        · subst he
          exact ⟨t, htm, fun hi => hi2 (hinit hi)⟩

end KgslPwrscale
